import Mathlib

/-!
Shallow embedding of the letterboxd-random watchlist service.

Sources embedded here:
* `src/unnamed/part_000` — two Cloudflare Worker variants.  The first worker's
  `parseMovies` (lines 127-211) and its duplicate in the second worker
  (lines 415-479) are identical; they are embedded once as `LBX.parseMovies`.
  The second worker's `handleWatchlistAPI` (StremThru variant) and
  `fallbackScrape` are embedded as `LBX.handleV2` and `LBX.fallbackScrape`.
* `src/api/watchlist.js` — the serverless variant; its `parseMovies`
  (lines 5-53) differs from the worker one and is embedded as
  `LBX.parseMoviesApi`; its request handler is `LBX.handlePrimary` applied to
  `parseMoviesApi` (the first worker's handler is `handlePrimary` applied to
  `parseMovies`; the two handlers are line-for-line the same control flow).

Strings are modeled as `List Char`.  JS regular-expression scans are embedded
as deterministic matchers: every pattern used by the source is star-free
inside its quoted region (character classes excluding the closing delimiter),
so greedy matching never backtracks and each pattern has a unique match at a
given position, computed by the `m*` functions below.
-/

namespace LBX

/-! ### JS string primitives -/

/-- `pat` occurs in `s` at index `i`. -/
def occursFrom (pat s : List Char) (i : Nat) : Prop := pat <+: s.drop i

/-- Scan for the first occurrence of `pat`, carrying the index `k` of the head. -/
def idxOfAux (pat : List Char) : List Char → Nat → Option Nat
  | [], k => if pat = [] then some k else none
  | c :: rest, k =>
    if pat.isPrefixOf (c :: rest) then some k else idxOfAux pat rest (k + 1)

/-- JS `s.indexOf(pat)`: first index of `pat` in `s`, `-1` when absent. -/
def jsIndexOf (s pat : List Char) : Int :=
  match idxOfAux pat s 0 with
  | some i => (i : Int)
  | none => -1

/-- JS `s.includes(pat)`. -/
def jsIncludes (s pat : List Char) : Bool := (idxOfAux pat s 0).isSome

/-- JS `s.substring(a, b)`: clamp both arguments to `[0, length]`, swap if
needed, and return the characters in `[start, end)`. -/
def jsSubstring (s : List Char) (a b : Int) : List Char :=
  (s.take (max (min (max a 0) ((s.length : Int))) (min (max b 0) ((s.length : Int)))).toNat).drop
    (min (min (max a 0) ((s.length : Int))) (min (max b 0) ((s.length : Int)))).toNat

/-- JS `slug.replace` of every dash with a space (the `-` regex with flag `g`). -/
def dashToSpace (s : List Char) : List Char :=
  s.map (fun c => if c = '-' then ' ' else c)

/-! ### Pattern matchers (one JS regex each, applied at the head of a string) -/

def notQuote : Char → Bool := fun c => c != '"'

def hrefStop : Char → Bool := fun c => c != '/' && c != '"'

def litFilmSlug : List Char := "data-film-slug=\"".toList
def litItemSlug : List Char := "data-item-slug=\"".toList
def litHref : List Char := "href=\"/film/".toList
def litFilmName : List Char := "data-film-name=\"".toList
def litItemName : List Char := "data-item-name=\"".toList
def litAlt : List Char := "alt=\"".toList
def litSrc : List Char := "src=\"".toList
def litHttps : List Char := "https://".toList
def litLtrbxd : List Char := "ltrbxd".toList
def litJpg : List Char := ".jpg".toList
def litWebp : List Char := ".webp".toList

/-- Matcher for `LIT("([^"]+)"` at the head of `t`: the capture is the maximal
run of non-quote characters after `lit`, which must be nonempty and followed
by a closing quote.  Returns the capture and the whole match's length. -/
def matchQuoted (lit : List Char) (t : List Char) : Option (List Char × Nat) :=
  if lit.isPrefixOf t then
    let rest := t.drop lit.length
    let cap := rest.takeWhile notQuote
    if cap = [] then none
    else if ['"'].isPrefixOf (rest.drop cap.length) then
      some (cap, lit.length + cap.length + 1)
    else none
  else none

/-- `/href="\/film\/([^/"]+)\/"/` at the head of `t`. -/
def mHref (t : List Char) : Option (List Char × Nat) :=
  if litHref.isPrefixOf t then
    let rest := t.drop litHref.length
    let cap := rest.takeWhile hrefStop
    if cap = [] then none
    else if ['/', '"'].isPrefixOf (rest.drop cap.length) then
      some (cap, litHref.length + cap.length + 2)
    else none
  else none

def mFilmSlug : List Char → Option (List Char × Nat) := matchQuoted litFilmSlug

def mItemSlug : List Char → Option (List Char × Nat) := matchQuoted litItemSlug

/-- `/data-(?:film|item)-slug="([^"]+)"/` at the head of `t` (the combined
pattern of `src/api/watchlist.js`). -/
def mSlugCombined (t : List Char) : Option (List Char × Nat) :=
  match matchQuoted litFilmSlug t with
  | some r => some r
  | none => matchQuoted litItemSlug t

/-- `/data-(?:film|item)-name="([^"]+)"/` at the head of `t`. -/
def mNameAttr (t : List Char) : Option (List Char × Nat) :=
  match matchQuoted litFilmName t with
  | some r => some r
  | none => matchQuoted litItemName t

/-- `/alt="([^"]+)"/` at the head of `t`. -/
def mAlt : List Char → Option (List Char × Nat) := matchQuoted litAlt

def lowerStr (s : List Char) : List Char := s.map Char.toLower

/-- Does the (already lowercased) quote-free run contain `ltrbxd` followed
later by `.jpg` or `.webp`?  This is the `ltrbxd[^"]*\.(jpg|webp)` part of the
worker poster regex. -/
def hasLtrbxdExt : List Char → Bool
  | [] => false
  | c :: rest =>
    (litLtrbxd.isPrefixOf (c :: rest)
      && (jsIncludes ((c :: rest).drop 6) litJpg
          || jsIncludes ((c :: rest).drop 6) litWebp))
    || hasLtrbxdExt rest

/-- `ltrbxd[^"]*\.jpg` part of the api poster regex (case sensitive, jpg only). -/
def hasLtrbxdJpg : List Char → Bool
  | [] => false
  | c :: rest =>
    (litLtrbxd.isPrefixOf (c :: rest) && jsIncludes ((c :: rest).drop 6) litJpg)
    || hasLtrbxdJpg rest

/-- `/src="(https:\/\/[^"]*ltrbxd[^"]*\.(jpg|webp)[^"]*)"/i` at the head of
`t` (worker variant, case-insensitive).  The capture is the whole quote-free
run after `src="`, which must start with `https://` and contain `ltrbxd`
followed by an image extension. -/
def mPosterW (t : List Char) : Option (List Char × Nat) :=
  if litSrc.isPrefixOf (lowerStr (t.take 5)) then
    let rest := t.drop 5
    let cap := rest.takeWhile notQuote
    let lc := lowerStr cap
    if litHttps.isPrefixOf lc && hasLtrbxdExt (lc.drop 8)
        && ['"'].isPrefixOf (rest.drop cap.length) then
      some (cap, 5 + cap.length + 1)
    else none
  else none

/-- `/src="(https:\/\/[^"]*ltrbxd[^"]*\.jpg[^"]*)"/` at the head of `t`
(api variant, case-sensitive, `.jpg` only). -/
def mPosterApi (t : List Char) : Option (List Char × Nat) :=
  if litSrc.isPrefixOf t then
    let rest := t.drop 5
    let cap := rest.takeWhile notQuote
    if litHttps.isPrefixOf cap && hasLtrbxdJpg (cap.drop 8)
        && ['"'].isPrefixOf (rest.drop cap.length) then
      some (cap, 5 + cap.length + 1)
    else none
  else none

/-- `/\((\d{4})\)/` at the head of `t`: a parenthesized run of exactly four
digits. -/
def mYear (t : List Char) : Option (List Char × Nat) :=
  match t with
  | '(' :: rest =>
    if (rest.take 4).length = 4 && (rest.take 4).all Char.isDigit
        && [')'].isPrefixOf (rest.drop 4) then
      some (rest.take 4, 6)
    else none
  | _ => none

/-! ### Regex driver functions -/

/-- All captures of a global regex scan (JS `while ((m = re.exec(s)) ...)`):
try the matcher at each position; on a match record the capture and resume
after the matched text (advancing at least one character).  The fuel starts at
`s.length`; every step consumes at least one character, so fuel never runs out
before the string does. -/
def execAllAux (m : List Char → Option (List Char × Nat)) :
    Nat → List Char → List (List Char)
  | 0, _ => []
  | _ + 1, [] => []
  | fuel + 1, c :: rest =>
    match m (c :: rest) with
    | some (cap, n) => cap :: execAllAux m fuel ((c :: rest).drop (max n 1))
    | none => execAllAux m fuel rest

def execAll (m : List Char → Option (List Char × Nat)) (s : List Char) :
    List (List Char) :=
  execAllAux m s.length s

/-- First capture of a non-global regex (JS `s.match(re)[1]`). -/
def firstCapture (m : List Char → Option (List Char × Nat)) :
    List Char → Option (List Char)
  | [] => none
  | c :: rest =>
    match m (c :: rest) with
    | some (cap, _) => some cap
    | none => firstCapture m rest

/-- First match of a non-global regex, returning the full matched text and the
capture (JS `s.match(re)` giving `[0]` and `[1]`). -/
def firstMatchP (m : List Char → Option (List Char × Nat)) :
    List Char → Option (List Char × List Char)
  | [] => none
  | c :: rest =>
    match m (c :: rest) with
    | some (cap, n) => some ((c :: rest).take n, cap)
    | none => firstMatchP m rest

/-! ### Poster URL enlargement -/

def lit150 : List Char := "-0-150-0-225-".toList
def big150 : List Char := "-0-230-0-345-".toList
def lit125 : List Char := "-0-125-0-187-".toList
def big125 : List Char := "-0-230-0-345-".toList
def litDash0 : List Char := "-0-".toList
def litDashCrop : List Char := "-crop".toList
def bigCrop : List Char := "-0-460-0-690-crop".toList

/-- Parse `-0-` followed by a greedy nonempty digit run (`-0-\d+`) at the head
of `t`; return the run's length and the remainder.  The following literal in
the crop regex starts with a non-digit, so the greedy run is the maximal one
and never backtracks. -/
def parseRun (t : List Char) : Option (Nat × List Char) :=
  if litDash0.isPrefixOf t then
    if (t.drop 3).takeWhile Char.isDigit = [] then none
    else
      some (((t.drop 3).takeWhile Char.isDigit).length,
        (t.drop 3).drop ((t.drop 3).takeWhile Char.isDigit).length)
  else none

/-- The regex `-0-\d+-0-\d+-crop` at the head of `t`, returning the match
length. -/
def mCrop (t : List Char) : Option Nat :=
  match parseRun t with
  | none => none
  | some r1 =>
    match parseRun r1.2 with
    | none => none
    | some r2 =>
      if litDashCrop.isPrefixOf r2.2 then some (3 + r1.1 + 3 + r2.1 + 5)
      else none

/-- JS `s.replace(pat, rep)` for a non-global pattern: replace the first match
found by `m` (which reports the match length at a given head). -/
def replaceFirstM (m : List Char → Option Nat) (rep : List Char) :
    List Char → List Char
  | [] => []
  | c :: rest =>
    match m (c :: rest) with
    | some n => rep ++ (c :: rest).drop n
    | none => c :: replaceFirstM m rep rest

/-- JS `s.replace('lit', rep)` (string patterns replace only the first
occurrence). -/
def replaceFirstLit (lit rep : List Char) : List Char → List Char :=
  replaceFirstM (fun t => if lit.isPrefixOf t then some lit.length else none) rep

def replaceCrop : List Char → List Char := replaceFirstM mCrop bigCrop

/-- The worker poster enlargement (part_000 lines 189-191): crop pattern, then
the two literal size tokens, in that order. -/
def enlargePosterW (p : List Char) : List Char :=
  replaceFirstLit lit125 big125 (replaceFirstLit lit150 big150 (replaceCrop p))

/-! ### Movie records and the two extractors -/

structure MovieRecord where
  slug : List Char
  title : List Char
  /-- `some y` models a JS object with a `year` key holding `y`; `none` models
  a record built without a `year` key. -/
  year : Option (List Char)
  poster : List Char
  link : List Char
  /-- StremThru cross-reference ids; scraper records carry no such keys. -/
  tmdb : Option (List Char) := none
  imdb : Option (List Char) := none
deriving DecidableEq

def linkOf (slug : List Char) : List Char :=
  "https://letterboxd.com/film/".toList ++ slug ++ ['/']

/-- JS `Set.add`: append if not already present (JS sets iterate in insertion
order). -/
def insertUnique (seen : List (List Char)) (x : List Char) : List (List Char) :=
  if x ∈ seen then seen else seen ++ [x]

/-- The worker's slug set (part_000 lines 129-156): three global scans, merged
into an insertion-ordered duplicate-free list. -/
def collectSlugs (html : List Char) : List (List Char) :=
  (execAll mFilmSlug html ++ execAll mItemSlug html ++ execAll mHref html).foldl
    insertUnique []

/-- The api variant's slug set (watchlist.js lines 15-20): one combined
attribute scan. -/
def collectSlugsApi (html : List Char) : List (List Char) :=
  (execAll mSlugCombined html).foldl insertUnique []

/-- The worker's local context (part_000 lines 161-166): 1000 characters each
side of the slug's first occurrence, clipped. -/
def workerSection (html slug : List Char) : List Char :=
  jsSubstring html (max 0 (jsIndexOf html slug - 1000))
    (min ((html.length : Int)) (jsIndexOf html slug + 1000))

/-- The api variant's local context (watchlist.js lines 25-28): 500 characters
each side of the slug's first occurrence, clipped. -/
def apiSection (html slug : List Char) : List Char :=
  jsSubstring html (max 0 (jsIndexOf html slug - 500))
    (min ((html.length : Int)) (jsIndexOf html slug + 500))

/-- Title resolution of the worker extractor (part_000 lines 169-181): name
attribute capture, else first alt capture when longer than one character, else
the slug with dashes as spaces. -/
def titleW (slug sect : List Char) : List Char :=
  match firstCapture mNameAttr sect with
  | some v => v
  | none =>
    match firstCapture mAlt sect with
    | some w => if w.length > 1 then w else dashToSpace slug
    | none => dashToSpace slug

/-- Poster resolution of the worker extractor (part_000 lines 183-192). -/
def posterW (sect : List Char) : List Char :=
  match firstCapture mPosterW sect with
  | some p => enlargePosterW p
  | none => []

/-- Year extraction of the worker extractor (part_000 lines 194-199): first
parenthesized four-digit group of the resolved title, else empty. -/
def yearW (title : List Char) : List Char :=
  match firstCapture mYear title with
  | some y => y
  | none => []

/-- One record of the worker extractor (part_000 lines 159-208); `none` is the
`continue` when the slug is (defensively) not found. -/
def buildRecordW (html slug : List Char) : Option MovieRecord :=
  if jsIndexOf html slug = -1 then none
  else
    some { slug := slug
           title := titleW slug (workerSection html slug)
           year := some (yearW (titleW slug (workerSection html slug)))
           poster := posterW (workerSection html slug)
           link := linkOf slug }

/-- The worker extractor: `parseMovies` of part_000 (both copies). -/
def parseMovies (html : List Char) : List MovieRecord :=
  (collectSlugs html).filterMap (buildRecordW html)

/-- Title resolution of the api extractor (watchlist.js lines 34-37): name
attribute capture, else the FULL text of the first alt match (`altMatch[0]`,
quotes and all, no length check), else the slug with dashes as spaces. -/
def titleApi (slug sect : List Char) : List Char :=
  match firstCapture mNameAttr sect with
  | some v => v
  | none =>
    match firstMatchP mAlt sect with
    | some fullCap => fullCap.1
    | none => dashToSpace slug

/-- Poster resolution of the api extractor (watchlist.js lines 30-32, 39-42):
only the crop-token rewrite, guarded by poster truthiness. -/
def posterApi (sect : List Char) : List Char :=
  let poster0 :=
    match firstCapture mPosterApi sect with
    | some p => p
    | none => []
  if poster0 = [] then poster0 else replaceCrop poster0

/-- One record of the api extractor (watchlist.js lines 23-49).  Every slug
yields a record (there is no `continue`) and no `year` key is produced. -/
def buildRecordApi (html slug : List Char) : MovieRecord :=
  { slug := slug
    title := titleApi slug (apiSection html slug)
    year := none
    poster := posterApi (apiSection html slug)
    link := linkOf slug }

/-- The api extractor: `parseMovies` of src/api/watchlist.js. -/
def parseMoviesApi (html : List Char) : List MovieRecord :=
  (collectSlugsApi html).map (buildRecordApi html)

/-! ### Fetching and the request handlers

The page fetcher is abstracted as an oracle `Nat → Fetch`: `ok html` is a
successful (2xx, fully read) response body, `fail` is any non-2xx status or
transport error (both code paths treat these identically: the serverless
variant's `fetchUrl` rejects and the rejection is caught, the worker variants
test `!response.ok`). -/

inductive Fetch where
  | ok (html : List Char)
  | fail
deriving DecidableEq

def markChallenge : List Char := "challenge-platform".toList
def markMoment : List Char := "Just a moment".toList

/-- The bot-challenge test applied to every fetched body
(`html.includes('challenge-platform') || html.includes('Just a moment')`). -/
def hasMarker (html : List Char) : Bool :=
  jsIncludes html markChallenge || jsIncludes html markMoment

inductive LoopOut where
  /-- non-2xx on page 1: the handler returns 404 immediately. -/
  | notFoundFirst
  /-- bot-challenge marker on page 1: the handler returns 503 immediately. -/
  | challengeFirst
  /-- the loop ran to completion with these accumulated movies. -/
  | finished (movies : List MovieRecord)
deriving DecidableEq

/-- The pagination loop (`while (hasMore && page <= cap)`), with fuel
`cap + 1 - page`: each iteration either stops or advances `page`, so starting
from page 1 with fuel `cap` performs at most `cap` iterations.  The second
component counts the iterations performed. -/
def scrapeLoop (parse : List Char → List MovieRecord) (fetch : Nat → Fetch) :
    Nat → Nat → List MovieRecord → LoopOut × Nat
  | 0, _, acc => (LoopOut.finished acc, 0)
  | fuel + 1, page, acc =>
    match fetch page with
    | Fetch.fail =>
      if page = 1 then (LoopOut.notFoundFirst, 1) else (LoopOut.finished acc, 1)
    | Fetch.ok html =>
      if hasMarker html then
        if page = 1 then (LoopOut.challengeFirst, 1)
        else (LoopOut.finished acc, 1)
      else
        let ms := parse html
        if ms = [] then (LoopOut.finished acc, 1)
        else
          let r := scrapeLoop parse fetch fuel (page + 1) (acc ++ ms)
          (r.1, r.2 + 1)

/-- A JSON response of the service: an error object (status, `error` message,
presence of `cloudflare: true`), a full-list success, or a single-movie
success.  The `movie` field holds the JS indexing result, `none` standing for
`undefined`. -/
inductive ApiResult where
  | errorResp (status : Nat) (msg : List Char) (cloudflare : Bool)
  | moviesResp (movies : List MovieRecord) (total : Nat)
  | movieResp (movie : Option MovieRecord) (total : Nat)
deriving DecidableEq

def statusOf : ApiResult → Nat
  | ApiResult.errorResp s _ _ => s
  | ApiResult.moviesResp _ _ => 200
  | ApiResult.movieResp _ _ => 200

def msgUsernameRequired : List Char := "Username required".toList
def msgNotFound : List Char := "User not found or watchlist is private".toList
def msgBlocked : List Char := "Letterboxd is blocking requests. Try again later.".toList
def msgEmpty : List Char := "Watchlist is empty or not accessible".toList
def msgEmptyStrem : List Char := "Watchlist is empty".toList

/-- JS `Math.floor(Math.random() * n)` with `Math.random()` abstracted as a
rational `r ∈ [0, 1)`. -/
def jsFloorMul (r : ℚ) (n : Nat) : Nat := (Int.floor (r * n)).toNat

/-- The request handler of src/api/watchlist.js (lines 100-165) and,
identically, of the first worker (part_000 lines 30-117): 20-page scrape loop,
then the empty / random / full-list responses.  The extractor is a parameter
because the two variants bind different `parseMovies` implementations.
`username = []` models a missing (or empty, hence falsy) username query. -/
def handlePrimary (parse : List Char → List MovieRecord) (username : List Char)
    (random : Bool) (r : ℚ) (fetch : Nat → Fetch) : ApiResult :=
  if username = [] then ApiResult.errorResp 400 msgUsernameRequired false
  else
    match (scrapeLoop parse fetch 20 1 []).1 with
    | LoopOut.notFoundFirst => ApiResult.errorResp 404 msgNotFound false
    | LoopOut.challengeFirst => ApiResult.errorResp 503 msgBlocked true
    | LoopOut.finished ms =>
      if ms = [] then ApiResult.errorResp 404 msgEmpty false
      else if random then
        ApiResult.movieResp ms[jsFloorMul r ms.length]? ms.length
      else ApiResult.moviesResp ms ms.length

/-- `fallbackScrape` of the second worker (part_000 lines 338-413): a 10-page
scrape loop with the same error mapping, always answering with the full list
(it receives no `random` flag). -/
def fallbackScrape (fetch : Nat → Fetch) : ApiResult :=
  match (scrapeLoop parseMovies fetch 10 1 []).1 with
  | LoopOut.notFoundFirst => ApiResult.errorResp 404 msgNotFound false
  | LoopOut.challengeFirst => ApiResult.errorResp 503 msgBlocked true
  | LoopOut.finished ms =>
    if ms = [] then ApiResult.errorResp 404 msgEmpty false
    else ApiResult.moviesResp ms ms.length

/-- An item of the StremThru aggregation API, fields optional as in JSON. -/
structure StremItem where
  slug : Option (List Char)
  id : List Char
  name : Option (List Char)
  title : Option (List Char)
  year : Option Int
  poster : Option (List Char)
  tmdb : Option (List Char)
  imdb : Option (List Char)
deriving DecidableEq

/-- JS `a || b` for an optional string `a`: `b` when `a` is absent or empty
(falsy). -/
def strOr (a : Option (List Char)) (b : List Char) : List Char :=
  match a with
  | some s => if s = [] then b else s
  | none => b

/-- The StremThru item→record mapping (part_000 lines 300-308). -/
def stremToRecord (item : StremItem) : MovieRecord :=
  { slug := strOr item.slug item.id
    title := strOr item.name (strOr item.title [])
    year := some (match item.year with
      | some y => if y = 0 then [] else (toString y).toList
      | none => [])
    poster := strOr item.poster []
    tmdb := item.tmdb
    imdb := item.imdb
    link := linkOf (strOr item.slug item.id) }

/-- Outcome of the identifier probe (part_000 lines 255-269): transport/non-2xx
failure, or a response whose `x-letterboxd-identifier` header is `id` (the
empty string modeling an absent or empty, hence falsy, header). -/
inductive IdFetch where
  | fail
  | ok (id : List Char)
deriving DecidableEq

/-- Outcome of the StremThru list request: failure/non-2xx, or a parsed list
of items (missing `data`/`items` fields collapse to the empty list, which the
source maps to the same 404). -/
inductive StremFetch where
  | fail
  | ok (items : List StremItem)
deriving DecidableEq

/-- `handleWatchlistAPI` of the second worker (part_000 lines 230-335): probe
for the letterboxd identifier, query StremThru, and fall back to scraping when
the header is missing or StremThru fails.  Note that the fallback path never
sees the `random` flag. -/
def handleV2 (username : List Char) (random : Bool) (r : ℚ) (idRes : IdFetch)
    (strem : StremFetch) (fetch : Nat → Fetch) : ApiResult :=
  if username = [] then ApiResult.errorResp 400 msgUsernameRequired false
  else
    match idRes with
    | IdFetch.fail => ApiResult.errorResp 404 msgNotFound false
    | IdFetch.ok id =>
      if id = [] then fallbackScrape fetch
      else
        match strem with
        | StremFetch.fail => fallbackScrape fetch
        | StremFetch.ok items =>
          if items = [] then ApiResult.errorResp 404 msgEmptyStrem false
          else
            let movies := items.map stremToRecord
            if random then
              ApiResult.movieResp movies[jsFloorMul r movies.length]? movies.length
            else ApiResult.moviesResp movies movies.length

/-! ### Claim-side (spec-facing) predicates

These state, extensionally and independently of the scanning functions above,
what it means for the patterns of the spec to occur in a string. -/

/-- The spec's "fixed-size window (`radius` characters before and after,
clipped to string bounds)" around position `i`. -/
def windowClipped (html : List Char) (i radius : Nat) : List Char :=
  (html.take (i + radius)).drop (i - radius)

/-- An attribute occurrence `lit`‥`v`‥quote with a nonempty quote-free value. -/
def quotedOccursWith (lit s v : List Char) : Prop :=
  (∃ a b, s = a ++ lit ++ v ++ '"' :: b) ∧ v ≠ [] ∧ ∀ c ∈ v, c ≠ '"'

def quotedOccurs (lit s : List Char) : Prop := ∃ v, quotedOccursWith lit s v

/-- A film/item name attribute occurs in `s`. -/
def nameOccurs (s : List Char) : Prop :=
  quotedOccurs litFilmName s ∨ quotedOccurs litItemName s

def nameOccursWith (s v : List Char) : Prop :=
  quotedOccursWith litFilmName s v ∨ quotedOccursWith litItemName s v

/-- A parenthesized four-digit group `(`‥`d`‥`)` at the split `a`/rest. -/
def yearDecompAt (t a d : List Char) : Prop :=
  (∃ b, t = a ++ '(' :: (d ++ ')' :: b)) ∧ d.length = 4 ∧ ∀ c ∈ d, c.isDigit = true

def yearOccurs (t : List Char) : Prop := ∃ a d, yearDecompAt t a d

/-- A nonempty all-digit run. -/
def isDigits (d : List Char) : Prop := d ≠ [] ∧ ∀ c ∈ d, c.isDigit = true

/-- The crop-size token `-0-<d1>-0-<d2>-crop`. -/
def cropTok (d1 d2 : List Char) : List Char :=
  litDash0 ++ d1 ++ litDash0 ++ d2 ++ litDashCrop

/-- A crop token occurs at index `j` of `s`. -/
def cropAt (s : List Char) (j : Nat) : Prop :=
  ∃ d1 d2 b, isDigits d1 ∧ isDigits d2 ∧ s.drop j = cropTok d1 d2 ++ b

def cropOccurs (s : List Char) : Prop := ∃ j, cropAt s j

/-- `lit` occurs somewhere in `s`. -/
def litOccurs (lit s : List Char) : Prop := ∃ a b, s = a ++ lit ++ b

/-! ### Concrete instances used by witnesses and counterexamples -/

def cUser : List Char := "u".toList

def cSlugZZ : List Char := "zz".toList

/-- A page with one film slug `zz` and nothing else. -/
def cHtmlZZ : List Char := "data-film-slug=\"zz\"".toList

/-- The record the worker extractor builds from `cHtmlZZ`. -/
def cRecZZ : MovieRecord :=
  { slug := cSlugZZ
    title := cSlugZZ
    year := some []
    poster := []
    link := "https://letterboxd.com/film/zz/".toList }

/-- A slug tag followed by 520 characters of padding: long enough that the
±500 and ±1000 windows around the slug differ. -/
def cHtmlWin : List Char := cHtmlZZ ++ List.replicate 520 'x'

def cWitHtml : List Char := "xyz".toList

def cWitSlug : List Char := "y".toList

/-- A page whose only film reference is a link href. -/
def cHtmlHref : List Char := "href=\"/film/dune/\"".toList

def cSlugDune : List Char := "dune".toList

/-- A page with a slug and a nearby image alt text but no name attribute. -/
def cHtmlAlt : List Char := "data-film-slug=\"zz\" <img alt=\"Movie\" >".toList

def cMovieStr : List Char := "Movie".toList

/-- The full text of the alt match in `cHtmlAlt`, quotes included. -/
def cAltFullStr : List Char := "alt=\"Movie\"".toList

/-- A page with a slug and a film name attribute carrying a year. -/
def cHtmlName : List Char :=
  "data-film-slug=\"dune-part-two\" data-film-name=\"Dune: Part Two (2024)\"".toList

def cSlugDPT : List Char := "dune-part-two".toList

/-- The record the worker extractor builds from `cHtmlName`. -/
def cRecDPT : MovieRecord :=
  { slug := cSlugDPT
    title := "Dune: Part Two (2024)".toList
    year := some "2024".toList
    poster := []
    link := "https://letterboxd.com/film/dune-part-two/".toList }

/-- A poster URL in the site's real format: the crop token overlaps the
`-0-150-0-225-` literal token. -/
def cUrl150crop : List Char := "https://a.ltrbxd.com/x-0-150-0-225-crop.jpg".toList

def cUrlA : List Char := "https://a.ltrbxd.com/x".toList

def cUrlB : List Char := "crop.jpg".toList

def cUrlBig : List Char := "https://a.ltrbxd.com/x-0-460-0-690-crop.jpg".toList

/-- A poster URL whose only size token is the `-0-150-0-225-` literal (no
crop segment). -/
def cUrlOnly150 : List Char := "https://a.ltrbxd.com/x-0-150-0-225-y.jpg".toList

def cUrlB2 : List Char := "y.jpg".toList

/-- A section containing `cUrlOnly150` as its poster image source. -/
def cSect150 : List Char :=
  "src=\"https://a.ltrbxd.com/x-0-150-0-225-y.jpg\"".toList

/-- A bot-challenge page body. -/
def cHtmlChal : List Char := "Just a moment".toList

def cFetchChal : Nat → Fetch := fun _ => Fetch.ok cHtmlChal

/-- Page 1 carries one movie, later pages are empty. -/
def cFetchOne : Nat → Fetch := fun p => if p = 1 then Fetch.ok cHtmlZZ else Fetch.ok []

/-- Pages 1 and 2 carry the same movie, later pages are empty. -/
def cFetchDup : Nat → Fetch := fun p => if p ≤ 2 then Fetch.ok cHtmlZZ else Fetch.ok []

def cD1 : List Char := "70".toList

def cD2 : List Char := "105".toList

def cU : List Char := "u".toList

def cV : List Char := "v".toList

def cJpgStr : List Char := ".jpg".toList

/-- A URL with no size token at all. -/
def cNoTok : List Char := "https://x.jpg".toList

/-! ## Helper lemmas -/

theorem isPrefixOf_eq_true_iff (l₁ l₂ : List Char) :
    l₁.isPrefixOf l₂ = true ↔ l₁ <+: l₂ := by
  simp

theorem idxOfAux_eq_some (pat : List Char) :
    ∀ (s : List Char) (k j : Nat), idxOfAux pat s k = some j →
      k ≤ j ∧ pat <+: s.drop (j - k) ∧ ∀ i < j - k, ¬ pat <+: s.drop i := by
  intro s
  induction s with
  | nil =>
    intro k j h
    simp only [idxOfAux] at h
    split at h
    · rename_i hp
      cases h
      exact ⟨le_rfl, by simp [hp], by omega⟩
    · cases h
  | cons c rest ih =>
    intro k j h
    simp only [idxOfAux] at h
    split at h
    · rename_i hp
      cases h
      refine ⟨le_rfl, ?_, by omega⟩
      simpa using (isPrefixOf_eq_true_iff pat (c :: rest)).mp hp
    · rename_i hp
      obtain ⟨hk, hocc, hfirst⟩ := ih (k + 1) j h
      rw [isPrefixOf_eq_true_iff] at hp
      refine ⟨by omega, ?_, ?_⟩
      · have he : j - k = (j - (k + 1)) + 1 := by omega
        rw [he]
        simpa using hocc
      · intro i hi
        cases i with
        | zero => simpa using hp
        | succ m =>
          have := hfirst m (by omega)
          simpa using this

theorem idxOfAux_eq_none (pat : List Char) :
    ∀ (s : List Char) (k : Nat), idxOfAux pat s k = none →
      ∀ i, ¬ pat <+: s.drop i := by
  intro s
  induction s with
  | nil =>
    intro k h i
    simp only [idxOfAux] at h
    split at h
    · cases h
    · rename_i hp
      simp only [List.drop_nil]
      intro hc
      exact hp (List.prefix_nil.mp hc)
  | cons c rest ih =>
    intro k h i
    simp only [idxOfAux] at h
    split at h
    · cases h
    · rename_i hp
      rw [isPrefixOf_eq_true_iff] at hp
      cases i with
      | zero => simpa using hp
      | succ m =>
        have := ih (k + 1) h m
        simpa using this

theorem jsIndexOf_eq_coe_iff (s pat : List Char) (i : Nat) :
    jsIndexOf s pat = (i : Int) ↔ idxOfAux pat s 0 = some i := by
  unfold jsIndexOf
  split
  · rename_i m heq
    rw [heq]
    constructor
    · intro hc
      have hmi : m = i := by exact_mod_cast hc
      rw [hmi]
    · intro hc
      injection hc with hmi
      rw [hmi]
  · rename_i heq
    rw [heq]
    constructor
    · intro hc
      exact absurd hc (by omega)
    · intro hc
      cases hc

theorem jsIndexOf_spec (s pat : List Char) (i : Nat) (h : jsIndexOf s pat = (i : Int)) :
    pat <+: s.drop i ∧ (∀ j < i, ¬ pat <+: s.drop j) ∧ i ≤ s.length := by
  rw [jsIndexOf_eq_coe_iff] at h
  obtain ⟨-, hocc, hfirst⟩ := idxOfAux_eq_some pat s 0 i h
  simp only [Nat.sub_zero] at hocc hfirst
  refine ⟨hocc, hfirst, ?_⟩
  by_contra hlen
  push_neg at hlen
  have hnil : s.drop i = [] := List.drop_eq_nil_of_le (by omega)
  rw [hnil] at hocc
  have hpat : pat = [] := List.prefix_nil.mp hocc
  have h0 : ¬ pat <+: s.drop 0 := hfirst 0 (by omega)
  rw [hpat] at h0
  exact h0 List.nil_prefix

theorem jsSubstring_eq (s : List Char) (a b : Int) (h0a : 0 ≤ a) (hab : a ≤ b)
    (hb : b ≤ (s.length : Int)) :
    jsSubstring s a b = (s.take b.toNat).drop a.toNat := by
  unfold jsSubstring
  have h1 : min (max a 0) ((s.length : Int)) = a := by omega
  have h2 : min (max b 0) ((s.length : Int)) = b := by omega
  rw [h1, h2, max_eq_right hab, min_eq_left hab]

theorem jsSubstring_window (s : List Char) (i radius : Nat) (hi : i ≤ s.length) :
    jsSubstring s (max 0 ((i : Int) - (radius : Int)))
      (min ((s.length : Int)) ((i : Int) + (radius : Int)))
      = windowClipped s i radius := by
  rw [jsSubstring_eq s _ _ (by omega) (by omega) (by omega)]
  unfold windowClipped
  have h1 : (max 0 ((i : Int) - (radius : Int))).toNat = i - radius := by omega
  have h2 : (min ((s.length : Int)) ((i : Int) + (radius : Int))).toNat
      = min s.length (i + radius) := by omega
  rw [h1, h2, Nat.min_comm, ← List.take_take, List.take_length]

/-! ## Claim C1 -/

/-- Claim C1, amended: when a slug's first textual occurrence in the HTML is
at index `i` (first occurrence characterized extensionally), the local context
used by the part_000 extractor to derive title, poster and year is the window
of 1000 characters before and after `i`, clipped to the string bounds — but
the context used by the src/api/watchlist.js extractor is the ±500-character
window, not ±1000. -/
theorem C1_window (html slug : List Char) (i : Nat)
    (h : jsIndexOf html slug = (i : Int)) :
    (slug <+: html.drop i ∧ ∀ j < i, ¬ slug <+: html.drop j) ∧
    workerSection html slug = windowClipped html i 1000 ∧
    apiSection html slug = windowClipped html i 500 := by
  obtain ⟨hocc, hfirst, hlen⟩ := jsIndexOf_spec html slug i h
  refine ⟨⟨hocc, hfirst⟩, ?_, ?_⟩
  · unfold workerSection
    rw [h]
    have hw := jsSubstring_window html i 1000 hlen
    push_cast at hw ⊢
    exact hw
  · unfold apiSection
    rw [h]
    have hw := jsSubstring_window html i 500 hlen
    push_cast at hw ⊢
    exact hw

/-- Witness for `C1_window` at a concrete page. -/
theorem C1_window_witness :
    jsIndexOf cWitHtml cWitSlug = ((1 : Nat) : Int) ∧
    ((cWitSlug <+: cWitHtml.drop 1 ∧ ∀ j < 1, ¬ cWitSlug <+: cWitHtml.drop j) ∧
      workerSection cWitHtml cWitSlug = windowClipped cWitHtml 1 1000 ∧
      apiSection cWitHtml cWitSlug = windowClipped cWitHtml 1 500) :=
  ⟨by decide, C1_window cWitHtml cWitSlug 1 (by decide)⟩

set_option maxRecDepth 100000 in
/-- Counterexample to claim C1 as stated: on `cHtmlWin` the slug `zz` is in
the api extractor's collected set and its first occurrence is at index 16,
but the context substring the api extractor derives its fields from is not
the ±1000-character window the claim describes (it is the ±500 one). -/
theorem C1_counterexample :
    cSlugZZ ∈ collectSlugsApi cHtmlWin ∧
    jsIndexOf cHtmlWin cSlugZZ = ((16 : Nat) : Int) ∧
    apiSection cHtmlWin cSlugZZ ≠ windowClipped cHtmlWin 16 1000 := by
  refine ⟨by decide, by decide, ?_⟩
  intro hcontra
  have hlen : (apiSection cHtmlWin cSlugZZ).length
      = (windowClipped cHtmlWin 16 1000).length := by rw [hcontra]
  revert hlen
  decide

/-! ## Claim C2 -/

theorem mem_insertUnique (acc : List (List Char)) (x s : List Char) :
    s ∈ insertUnique acc x ↔ s ∈ acc ∨ s = x := by
  unfold insertUnique
  split
  · rename_i hx
    constructor
    · exact Or.inl
    · rintro (h | rfl)
      · exact h
      · exact hx
  · simp

theorem mem_foldl_insertUnique (l : List (List Char)) :
    ∀ acc s, s ∈ l.foldl insertUnique acc ↔ s ∈ acc ∨ s ∈ l := by
  induction l with
  | nil => simp
  | cons x xs ih =>
    intro acc s
    simp only [List.foldl_cons, ih, mem_insertUnique, List.mem_cons]
    tauto

theorem nodup_insertUnique (acc : List (List Char)) (x : List Char)
    (h : acc.Nodup) : (insertUnique acc x).Nodup := by
  unfold insertUnique
  split
  · exact h
  · rename_i hx
    refine List.Nodup.append h (List.nodup_singleton x) ?_
    intro a ha hb
    simp only [List.mem_singleton] at hb
    subst hb
    exact hx ha

theorem nodup_foldl_insertUnique (l : List (List Char)) :
    ∀ acc : List (List Char), acc.Nodup → (l.foldl insertUnique acc).Nodup := by
  induction l with
  | nil => intro acc h; exact h
  | cons x xs ih => intro acc h; exact ih _ (nodup_insertUnique acc x h)

/-- Claim C2, amended: the part_000 extractor collects its candidate slug set
by merging the captures of the three scans (film-slug attribute, item-slug
attribute, film link href) into one duplicate-free set; the
src/api/watchlist.js extractor instead scans only the combined
data-(film|item)-slug attribute pattern — it has no link-href pattern — also
deduplicated. -/
theorem C2_scan (html s : List Char) :
    (s ∈ collectSlugs html ↔
      s ∈ execAll mFilmSlug html ∨ s ∈ execAll mItemSlug html ∨
        s ∈ execAll mHref html) ∧
    (collectSlugs html).Nodup ∧
    (s ∈ collectSlugsApi html ↔ s ∈ execAll mSlugCombined html) ∧
    (collectSlugsApi html).Nodup := by
  refine ⟨?_, ?_, ?_, ?_⟩
  · unfold collectSlugs
    rw [mem_foldl_insertUnique]
    simp [or_assoc]
  · exact nodup_foldl_insertUnique _ [] List.nodup_nil
  · unfold collectSlugsApi
    rw [mem_foldl_insertUnique]
    simp
  · exact nodup_foldl_insertUnique _ [] List.nodup_nil

/-- Counterexample to claim C2 as stated: `cHtmlHref` carries a film link
href, which the three-pattern scan captures as `dune` (and the part_000
extractor collects), but the api extractor's collected set is empty: it does
not scan with the link-href pattern. -/
theorem C2_counterexample :
    collectSlugsApi cHtmlHref = [] ∧
    cSlugDune ∈ execAll mHref cHtmlHref ∧
    cSlugDune ∈ collectSlugs cHtmlHref ∧
    parseMoviesApi cHtmlHref = [] := by
  decide

/-! ## Matcher characterizations -/

theorem takeWhile_eq_self_append (p : Char → Bool) (v : List Char) (y : Char)
    (b : List Char) (hv : ∀ c ∈ v, p c = true) (hy : p y = false) :
    (v ++ y :: b).takeWhile p = v := by
  induction v with
  | nil => simp [List.takeWhile_cons, hy]
  | cons c cs ih =>
    have hc : p c = true := hv c (by simp)
    simp only [List.cons_append, List.takeWhile_cons, hc, if_true]
    rw [ih (fun d hd => hv d (by simp [hd]))]

theorem matchQuoted_eq_some_iff (lit t v : List Char) (n : Nat) :
    matchQuoted lit t = some (v, n) ↔
      (∃ b, t = lit ++ v ++ '"' :: b) ∧ v ≠ [] ∧ (∀ c ∈ v, c ≠ '"') ∧
        n = lit.length + v.length + 1 := by
  constructor
  · intro h
    simp only [matchQuoted] at h
    split at h
    · rename_i hp
      rw [isPrefixOf_eq_true_iff] at hp
      obtain ⟨r, hr⟩ := hp
      subst hr
      rw [List.drop_left] at h
      set w := r.takeWhile notQuote with hw
      split at h
      · cases h
      · rename_i hne
        split at h
        · rename_i hq
          have hsplit : w ++ r.dropWhile notQuote = r := by
            rw [hw]
            exact List.takeWhile_append_dropWhile notQuote r
          have hdrop : r.drop w.length = r.dropWhile notQuote := by
            conv_lhs => rw [← hsplit]
            rw [List.drop_left]
          rw [isPrefixOf_eq_true_iff] at hq
          obtain ⟨b, hb⟩ := hq
          simp only [List.singleton_append] at hb
          rw [Option.some_inj, Prod.mk.injEq] at h
          obtain ⟨h1, h2⟩ := h
          subst h1
          subst h2
          refine ⟨⟨b, ?_⟩, hne, ?_, rfl⟩
          · have hr2 : r = w ++ '"' :: b := by
              rw [← hsplit, ← hdrop, ← hb]
            rw [hr2]
            simp [List.append_assoc]
          · intro c hc
            rw [hw] at hc
            have := List.mem_takeWhile_imp hc
            simpa [notQuote] using this
        · cases h
    · cases h
  · rintro ⟨⟨b, rfl⟩, hne, hqf, rfl⟩
    have hp : lit.isPrefixOf (lit ++ v ++ '"' :: b) = true := by
      rw [isPrefixOf_eq_true_iff]
      exact ⟨v ++ '"' :: b, by simp⟩
    have hdropLit : (lit ++ v ++ '"' :: b).drop lit.length = v ++ '"' :: b := by
      rw [List.append_assoc, List.drop_left]
    have htw : (v ++ '"' :: b).takeWhile notQuote = v := by
      refine takeWhile_eq_self_append notQuote v '"' b ?_ (by simp [notQuote])
      intro c hc
      simp [notQuote, hqf c hc]
    have hdropV : (v ++ '"' :: b).drop v.length = '"' :: b := List.drop_left v _
    have hqp : (['"'] : List Char).isPrefixOf ('"' :: b) = true := by
      rw [isPrefixOf_eq_true_iff]
      exact ⟨b, rfl⟩
    simp [matchQuoted, hp, hdropLit, htw, hdropV, hne, hqp]

theorem firstCapture_eq_none_iff (m : List Char → Option (List Char × Nat))
    (s : List Char) :
    firstCapture m s = none ↔ ∀ j < s.length, m (s.drop j) = none := by
  induction s with
  | nil => simp [firstCapture]
  | cons c rest ih =>
    simp only [firstCapture]
    split
    · rename_i cap n heq
      constructor
      · intro h; cases h
      · intro h
        have h0 := h 0 (by simp)
        simp only [List.drop_zero] at h0
        rw [heq] at h0
        cases h0
    · rename_i heq
      rw [ih]
      constructor
      · intro h j hj
        cases j with
        | zero => simpa using heq
        | succ k =>
          have hk : k < rest.length := by simpa using hj
          simpa using h k hk
      · intro h j hj
        have := h (j + 1) (by simpa using hj)
        simpa using this

theorem firstCapture_eq_some (m : List Char → Option (List Char × Nat))
    (s v : List Char) (h : firstCapture m s = some v) :
    ∃ j n, j < s.length ∧ m (s.drop j) = some (v, n) ∧
      ∀ k < j, m (s.drop k) = none := by
  induction s with
  | nil => cases h
  | cons c rest ih =>
    simp only [firstCapture] at h
    split at h
    · rename_i cap n heq
      cases h
      exact ⟨0, n, by simp, by simpa using heq, by omega⟩
    · rename_i heq
      obtain ⟨j, n, hj, hm, hfirst⟩ := ih h
      refine ⟨j + 1, n, by simpa using hj, by simpa using hm, ?_⟩
      intro k hk
      cases k with
      | zero => simpa using heq
      | succ k' =>
        have := hfirst k' (by omega)
        simpa using this

theorem firstMatchP_eq_some (m : List Char → Option (List Char × Nat))
    (s : List Char) (fc : List Char × List Char)
    (h : firstMatchP m s = some fc) :
    ∃ j n, j < s.length ∧ m (s.drop j) = some (fc.2, n) ∧
      fc.1 = (s.drop j).take n ∧ ∀ k < j, m (s.drop k) = none := by
  induction s with
  | nil => cases h
  | cons c rest ih =>
    simp only [firstMatchP] at h
    split at h
    · rename_i cap n heq
      cases h
      exact ⟨0, n, by simp, by simpa using heq, by simp, by omega⟩
    · rename_i heq
      obtain ⟨j, n, hj, hm, hfull, hfirst⟩ := ih h
      refine ⟨j + 1, n, by simpa using hj, by simpa using hm, by simpa using hfull, ?_⟩
      intro k hk
      cases k with
      | zero => simpa using heq
      | succ k' =>
        have := hfirst k' (by omega)
        simpa using this

theorem quotedOccurs_iff_firstCapture (lit s : List Char) (hlit : lit ≠ []) :
    firstCapture (matchQuoted lit) s = none ↔ ¬ quotedOccurs lit s := by
  rw [firstCapture_eq_none_iff]
  constructor
  · rintro h ⟨v, ⟨a, b, hs⟩, hne, hqf⟩
    have hlit1 : 0 < lit.length := List.length_pos.mpr hlit
    have hjlen : a.length < s.length := by
      rw [hs]
      simp only [List.append_assoc, List.length_append]
      omega
    have hd : s.drop a.length = lit ++ v ++ '"' :: b := by
      rw [hs, List.append_assoc, List.append_assoc, List.drop_left,
        ← List.append_assoc]
    have hm := h a.length hjlen
    rw [hd] at hm
    have hsome : matchQuoted lit (lit ++ v ++ '"' :: b)
        = some (v, lit.length + v.length + 1) :=
      (matchQuoted_eq_some_iff lit _ v _).mpr ⟨⟨b, rfl⟩, hne, hqf, rfl⟩
    rw [hsome] at hm
    cases hm
  · intro h j hj
    cases hm : matchQuoted lit (s.drop j) with
    | none => rfl
    | some pr =>
      obtain ⟨cap, n⟩ := pr
      rw [matchQuoted_eq_some_iff] at hm
      obtain ⟨⟨b, hb⟩, hne, hqf, -⟩ := hm
      refine absurd ⟨cap, ⟨s.take j, b, ?_⟩, hne, hqf⟩ h
      conv_lhs => rw [← List.take_append_drop j s]
      rw [hb]
      simp [List.append_assoc]

theorem quotedOccursWith_of_firstCapture (lit s v : List Char)
    (h : firstCapture (matchQuoted lit) s = some v) :
    quotedOccursWith lit s v := by
  obtain ⟨j, n, hj, hm, -⟩ := firstCapture_eq_some _ _ _ h
  rw [matchQuoted_eq_some_iff] at hm
  obtain ⟨⟨b, hb⟩, hne, hqf, -⟩ := hm
  refine ⟨⟨s.take j, b, ?_⟩, hne, hqf⟩
  conv_lhs => rw [← List.take_append_drop j s]
  rw [hb]
  simp [List.append_assoc]

theorem mNameAttr_eq_none_iff (t : List Char) :
    mNameAttr t = none ↔
      matchQuoted litFilmName t = none ∧ matchQuoted litItemName t = none := by
  unfold mNameAttr
  split
  · rename_i r heq
    simp [heq]
  · rename_i heq
    simp [heq]

theorem firstCapture_mNameAttr_none_iff (s : List Char) :
    firstCapture mNameAttr s = none ↔ ¬ nameOccurs s := by
  rw [firstCapture_eq_none_iff]
  have hfilm := quotedOccurs_iff_firstCapture litFilmName s (by decide)
  have hitem := quotedOccurs_iff_firstCapture litItemName s (by decide)
  rw [firstCapture_eq_none_iff] at hfilm hitem
  constructor
  · intro h
    have h1 : ∀ j < s.length, matchQuoted litFilmName (s.drop j) = none :=
      fun j hj => ((mNameAttr_eq_none_iff _).mp (h j hj)).1
    have h2 : ∀ j < s.length, matchQuoted litItemName (s.drop j) = none :=
      fun j hj => ((mNameAttr_eq_none_iff _).mp (h j hj)).2
    rintro (hocc | hocc)
    · exact hfilm.mp h1 hocc
    · exact hitem.mp h2 hocc
  · intro h j hj
    rw [mNameAttr_eq_none_iff]
    constructor
    · by_contra hn
      cases hmm : matchQuoted litFilmName (s.drop j) with
      | none => exact hn hmm
      | some pr =>
        obtain ⟨cap, n⟩ := pr
        rw [matchQuoted_eq_some_iff] at hmm
        obtain ⟨⟨b, hb⟩, hne, hqf, -⟩ := hmm
        refine h (Or.inl ⟨cap, ⟨s.take j, b, ?_⟩, hne, hqf⟩)
        conv_lhs => rw [← List.take_append_drop j s]
        rw [hb]
        simp [List.append_assoc]
    · by_contra hn
      cases hmm : matchQuoted litItemName (s.drop j) with
      | none => exact hn hmm
      | some pr =>
        obtain ⟨cap, n⟩ := pr
        rw [matchQuoted_eq_some_iff] at hmm
        obtain ⟨⟨b, hb⟩, hne, hqf, -⟩ := hmm
        refine h (Or.inr ⟨cap, ⟨s.take j, b, ?_⟩, hne, hqf⟩)
        conv_lhs => rw [← List.take_append_drop j s]
        rw [hb]
        simp [List.append_assoc]

theorem nameOccursWith_of_firstCapture (s v : List Char)
    (h : firstCapture mNameAttr s = some v) : nameOccursWith s v := by
  obtain ⟨j, n, hj, hm, -⟩ := firstCapture_eq_some _ _ _ h
  unfold mNameAttr at hm
  split at hm
  · rename_i r heq
    cases hm
    rw [matchQuoted_eq_some_iff] at heq
    obtain ⟨⟨b, hb⟩, hne, hqf, -⟩ := heq
    refine Or.inl ⟨⟨s.take j, b, ?_⟩, hne, hqf⟩
    conv_lhs => rw [← List.take_append_drop j s]
    rw [hb]
    simp [List.append_assoc]
  · rename_i heq
    rw [matchQuoted_eq_some_iff] at hm
    obtain ⟨⟨b, hb⟩, hne, hqf, -⟩ := hm
    refine Or.inr ⟨⟨s.take j, b, ?_⟩, hne, hqf⟩
    conv_lhs => rw [← List.take_append_drop j s]
    rw [hb]
    simp [List.append_assoc]

/-! ## Claim C3 -/

theorem buildRecordW_eq_some (html slug : List Char) (rec : MovieRecord)
    (h : buildRecordW html slug = some rec) :
    rec.slug = slug ∧
    rec.title = titleW slug (workerSection html slug) ∧
    rec.year = some (yearW (titleW slug (workerSection html slug))) ∧
    rec.poster = posterW (workerSection html slug) ∧
    rec.link = linkOf slug := by
  unfold buildRecordW at h
  split at h
  · cases h
  · rw [Option.some_inj] at h
    subst h
    exact ⟨rfl, rfl, rfl, rfl, rfl⟩

/-- Claim C3, amended: in the part_000 extractor the title is the first name
attribute capture when a name attribute occurs in the window (occurrence
characterized extensionally); otherwise, when the FIRST alt match's capture is
longer than one character it is that capture, and otherwise the slug with
dashes replaced by spaces.  In the src/api/watchlist.js extractor the alt
fallback instead uses the full text of the first alt match — `alt="…"`,
quotes and attribute name included — with no length test. -/
theorem C3_title :
    (∀ html slug rec, buildRecordW html slug = some rec →
      ((firstCapture mNameAttr (workerSection html slug) = none ↔
          ¬ nameOccurs (workerSection html slug)) ∧
        (∀ v, firstCapture mNameAttr (workerSection html slug) = some v →
          rec.title = v ∧ nameOccursWith (workerSection html slug) v) ∧
        (firstCapture mNameAttr (workerSection html slug) = none →
          (∀ w, firstCapture mAlt (workerSection html slug) = some w →
            (1 < w.length → rec.title = w ∧
              quotedOccursWith litAlt (workerSection html slug) w) ∧
            (w.length ≤ 1 → rec.title = dashToSpace slug)) ∧
          (firstCapture mAlt (workerSection html slug) = none →
            rec.title = dashToSpace slug ∧
              ¬ quotedOccurs litAlt (workerSection html slug))))) ∧
    (∀ html slug fc, firstCapture mNameAttr (apiSection html slug) = none →
      firstMatchP mAlt (apiSection html slug) = some fc →
      (buildRecordApi html slug).title = fc.1 ∧
      fc.1 = litAlt ++ fc.2 ++ ['"'] ∧
      quotedOccursWith litAlt (apiSection html slug) fc.2) := by
  constructor
  · intro html slug rec h
    obtain ⟨-, htitle, -, -, -⟩ := buildRecordW_eq_some html slug rec h
    refine ⟨firstCapture_mNameAttr_none_iff _, ?_, ?_⟩
    · intro v hv
      constructor
      · rw [htitle]
        unfold titleW
        rw [hv]
      · exact nameOccursWith_of_firstCapture _ v hv
    · intro hnone
      constructor
      · intro w hw
        have hw' : firstCapture (matchQuoted litAlt) (workerSection html slug)
            = some w := hw
        constructor
        · intro h1
          constructor
          · rw [htitle]
            unfold titleW
            rw [hnone, hw]
            show (if w.length > 1 then w else dashToSpace slug) = w
            rw [if_pos h1]
          · exact quotedOccursWith_of_firstCapture litAlt _ w hw'
        · intro h1
          rw [htitle]
          unfold titleW
          rw [hnone, hw]
          show (if w.length > 1 then w else dashToSpace slug) = dashToSpace slug
          rw [if_neg (Nat.not_lt.mpr h1)]
      · intro haltnone
        have haltnone' : firstCapture (matchQuoted litAlt) (workerSection html slug)
            = none := haltnone
        constructor
        · rw [htitle]
          unfold titleW
          rw [hnone, haltnone]
        · exact (quotedOccurs_iff_firstCapture litAlt _ (by decide)).mp haltnone'
  · intro html slug fc hnone hfm
    obtain ⟨j, n, hj, hm, hfull, -⟩ := firstMatchP_eq_some mAlt _ fc hfm
    have hm' : matchQuoted litAlt ((apiSection html slug).drop j) = some (fc.2, n) := hm
    rw [matchQuoted_eq_some_iff] at hm'
    obtain ⟨⟨b, hb⟩, hne, hqf, hn⟩ := hm'
    have hlen : (litAlt ++ fc.2 ++ ['"']).length = n := by
      simp only [List.length_append, List.length_cons, List.length_nil, hn]
    have happ : (litAlt ++ fc.2 ++ ['"']) ++ b = litAlt ++ fc.2 ++ ('"' :: b) := by
      simp
    refine ⟨?_, ?_, ?_⟩
    · show titleApi slug (apiSection html slug) = fc.1
      unfold titleApi
      rw [hnone, hfm]
    · rw [hfull, hb, ← happ, List.take_left' hlen]
    · refine ⟨⟨(apiSection html slug).take j, b, ?_⟩, hne, hqf⟩
      conv_lhs => rw [← List.take_append_drop j (apiSection html slug)]
      rw [hb]
      simp [List.append_assoc]

/-- Witness for `C3_title`: the worker part at `cHtmlName` (a page with a name
attribute), the api part at `cHtmlAlt` (a page with only an alt text). -/
theorem C3_title_witness :
    (((firstCapture mNameAttr (workerSection cHtmlName cSlugDPT) = none ↔
        ¬ nameOccurs (workerSection cHtmlName cSlugDPT)) ∧
      (∀ v, firstCapture mNameAttr (workerSection cHtmlName cSlugDPT) = some v →
        cRecDPT.title = v ∧ nameOccursWith (workerSection cHtmlName cSlugDPT) v) ∧
      (firstCapture mNameAttr (workerSection cHtmlName cSlugDPT) = none →
        (∀ w, firstCapture mAlt (workerSection cHtmlName cSlugDPT) = some w →
          (1 < w.length → cRecDPT.title = w ∧
            quotedOccursWith litAlt (workerSection cHtmlName cSlugDPT) w) ∧
          (w.length ≤ 1 → cRecDPT.title = dashToSpace cSlugDPT)) ∧
        (firstCapture mAlt (workerSection cHtmlName cSlugDPT) = none →
          cRecDPT.title = dashToSpace cSlugDPT ∧
            ¬ quotedOccurs litAlt (workerSection cHtmlName cSlugDPT)))) ∧
    ((buildRecordApi cHtmlAlt cSlugZZ).title = (cAltFullStr, cMovieStr).1 ∧
      (cAltFullStr, cMovieStr).1 = litAlt ++ (cAltFullStr, cMovieStr).2 ++ ['"'] ∧
      quotedOccursWith litAlt (apiSection cHtmlAlt cSlugZZ) (cAltFullStr, cMovieStr).2)) :=
  ⟨C3_title.1 cHtmlName cSlugDPT cRecDPT (by decide),
    C3_title.2 cHtmlAlt cSlugZZ (cAltFullStr, cMovieStr) (by decide) (by decide)⟩

/-- Counterexample to claim C3 as stated: on `cHtmlAlt` the api extractor's
record title is the full text `alt="Movie"` — it contains a quote character,
while every candidate the claim allows (a name attribute capture, an alt
capture of length > 1, or the slug with separators replaced) is quote-free:
the only alt capture in the window is `Movie` and the slug-derived name is
`zz`. -/
theorem C3_counterexample :
    (parseMoviesApi cHtmlAlt).map (fun r => r.title) = [cAltFullStr] ∧
    '"' ∈ cAltFullStr ∧
    firstCapture mNameAttr (apiSection cHtmlAlt cSlugZZ) = none ∧
    execAll mAlt (apiSection cHtmlAlt cSlugZZ) = [cMovieStr] ∧
    '"' ∉ cMovieStr ∧ '"' ∉ dashToSpace cSlugZZ ∧ cAltFullStr ≠ cMovieStr ∧
    cAltFullStr ≠ dashToSpace cSlugZZ := by
  decide

/-! ## Claim C4 -/

theorem mYear_eq_some_iff (t d : List Char) (n : Nat) :
    mYear t = some (d, n) ↔
      (∃ b, t = '(' :: (d ++ ')' :: b)) ∧ d.length = 4 ∧
        (∀ c ∈ d, c.isDigit = true) ∧ n = 6 := by
  constructor
  · intro h
    unfold mYear at h
    split at h
    · rename_i rest
      split at h
      · rename_i hcond
        rw [Option.some_inj, Prod.mk.injEq] at h
        obtain ⟨h1, h2⟩ := h
        subst h1
        subst h2
        simp only [Bool.and_eq_true, decide_eq_true_eq, List.all_eq_true] at hcond
        obtain ⟨⟨hlen4, hdig⟩, hq⟩ := hcond
        rw [isPrefixOf_eq_true_iff] at hq
        obtain ⟨b, hb⟩ := hq
        simp only [List.singleton_append] at hb
        refine ⟨⟨b, ?_⟩, hlen4, ?_, rfl⟩
        · have hr : rest.take 4 ++ ')' :: b = rest := by
            rw [hb, List.take_append_drop]
          conv_lhs => rw [← hr]
        · intro c hc
          exact hdig c hc
      · cases h
    · cases h
  · rintro ⟨⟨b, rfl⟩, hlen4, hdig, rfl⟩
    unfold mYear
    have htake : (d ++ ')' :: b).take 4 = d := List.take_left' hlen4
    have hdrop : (d ++ ')' :: b).drop 4 = ')' :: b := List.drop_left' hlen4
    have hq : ([')'] : List Char).isPrefixOf (')' :: b) = true := by
      rw [isPrefixOf_eq_true_iff]
      exact ⟨b, rfl⟩
    have hall : d.all Char.isDigit = true := List.all_eq_true.mpr hdig
    simp [htake, hdrop, hlen4, hq, hall]

theorem firstCapture_mYear_none_iff (t : List Char) :
    firstCapture mYear t = none ↔ ¬ yearOccurs t := by
  rw [firstCapture_eq_none_iff]
  constructor
  · rintro h ⟨a, d, ⟨b, ht⟩, hlen4, hdig⟩
    have hjlen : a.length < t.length := by
      rw [ht]
      simp only [List.length_append, List.length_cons]
      omega
    have hd : t.drop a.length = '(' :: (d ++ ')' :: b) := by
      rw [ht, List.drop_left]
    have hm := h a.length hjlen
    rw [hd] at hm
    have hsome : mYear ('(' :: (d ++ ')' :: b)) = some (d, 6) :=
      (mYear_eq_some_iff _ d 6).mpr ⟨⟨b, rfl⟩, hlen4, hdig, rfl⟩
    rw [hsome] at hm
    cases hm
  · intro h j hj
    cases hm : mYear (t.drop j) with
    | none => rfl
    | some pr =>
      obtain ⟨d, n⟩ := pr
      rw [mYear_eq_some_iff] at hm
      obtain ⟨⟨b, hb⟩, hlen4, hdig, -⟩ := hm
      refine absurd ⟨t.take j, d, ⟨b, ?_⟩, hlen4, hdig⟩ h
      conv_lhs => rw [← List.take_append_drop j t]
      rw [hb]

/-- Claim C4, amended: in the part_000 extractor every record carries a year
key, equal to the digits of the first parenthesized four-digit group of the
resolved title, or the empty string when no such group occurs — but records
emitted by the src/api/watchlist.js extractor carry no year key at all. -/
theorem C4_year :
    (∀ html slug rec, buildRecordW html slug = some rec →
      (∃ y, rec.year = some y) ∧
      (firstCapture mYear rec.title = none →
        rec.year = some [] ∧ ¬ yearOccurs rec.title) ∧
      (∀ d, firstCapture mYear rec.title = some d →
        rec.year = some d ∧
        ∃ a, yearDecompAt rec.title a d ∧
          ∀ a' d', yearDecompAt rec.title a' d' → a.length ≤ a'.length)) ∧
    (∀ html slug, (buildRecordApi html slug).year = none) := by
  constructor
  · intro html slug rec h
    obtain ⟨-, htitle, hyear, -, -⟩ := buildRecordW_eq_some html slug rec h
    rw [← htitle] at hyear
    refine ⟨⟨yearW rec.title, hyear⟩, ?_, ?_⟩
    · intro hnone
      constructor
      · rw [hyear]
        unfold yearW
        rw [hnone]
      · exact (firstCapture_mYear_none_iff rec.title).mp hnone
    · intro d hd
      constructor
      · rw [hyear]
        unfold yearW
        rw [hd]
      · obtain ⟨j, n, hj, hm, hfirst⟩ := firstCapture_eq_some mYear rec.title d hd
        rw [mYear_eq_some_iff] at hm
        obtain ⟨⟨b, hb⟩, hlen4, hdig, -⟩ := hm
        have haj : (rec.title.take j).length = j := by
          rw [List.length_take]
          omega
        refine ⟨rec.title.take j, ⟨⟨b, ?_⟩, hlen4, hdig⟩, ?_⟩
        · conv_lhs => rw [← List.take_append_drop j rec.title]
          rw [hb]
        · rintro a' d' ⟨⟨b', hb'⟩, hlen4', hdig'⟩
          by_contra hlt
          push_neg at hlt
          rw [haj] at hlt
          have hk := hfirst a'.length hlt
          have hd' : rec.title.drop a'.length = '(' :: (d' ++ ')' :: b') := by
            rw [hb', List.drop_left]
          rw [hd'] at hk
          have hsome : mYear ('(' :: (d' ++ ')' :: b')) = some (d', 6) :=
            (mYear_eq_some_iff _ d' 6).mpr ⟨⟨b', rfl⟩, hlen4', hdig', rfl⟩
          rw [hsome] at hk
          cases hk
  · intro html slug
    rfl

/-- Witness for `C4_year`: the worker record of `cHtmlName` (title with a
year) and the api record of `cHtmlZZ`. -/
theorem C4_year_witness :
    ((∃ y, cRecDPT.year = some y) ∧
      (firstCapture mYear cRecDPT.title = none →
        cRecDPT.year = some [] ∧ ¬ yearOccurs cRecDPT.title) ∧
      (∀ d, firstCapture mYear cRecDPT.title = some d →
        cRecDPT.year = some d ∧
        ∃ a, yearDecompAt cRecDPT.title a d ∧
          ∀ a' d', yearDecompAt cRecDPT.title a' d' → a.length ≤ a'.length)) ∧
    (buildRecordApi cHtmlZZ cSlugZZ).year = none :=
  ⟨C4_year.1 cHtmlName cSlugDPT cRecDPT (by decide), C4_year.2 cHtmlZZ cSlugZZ⟩

/-- Counterexample to claim C4 as stated: the api extractor's record for
`cHtmlZZ` carries no year field at all (while the claim asserts every emitted
MovieRecord carries one). -/
theorem C4_counterexample :
    (parseMoviesApi cHtmlZZ).map (fun r => r.year) = [none] ∧
    parseMoviesApi cHtmlZZ ≠ [] := by
  decide

/-! ## Claim C5 -/

theorem takeWhile_append_of_all (p : Char → Bool) (v w : List Char)
    (hv : ∀ c ∈ v, p c = true) :
    (v ++ w).takeWhile p = v ++ w.takeWhile p := by
  induction v with
  | nil => simp
  | cons c cs ih =>
    have hc : p c = true := hv c (by simp)
    simp only [List.cons_append, List.takeWhile_cons, hc, if_true]
    rw [ih (fun d hd => hv d (by simp [hd]))]

theorem drop_length_takeWhile (p : Char → Bool) (l : List Char) :
    l.drop (l.takeWhile p).length = l.dropWhile p := by
  induction l with
  | nil => rfl
  | cons c cs ih =>
    by_cases hc : p c
    · simp [List.takeWhile_cons, List.dropWhile_cons, hc, ih]
    · simp [List.takeWhile_cons, List.dropWhile_cons, hc]

theorem replaceFirstM_of_none (m : List Char → Option Nat) (rep : List Char) :
    ∀ s : List Char, (∀ j < s.length, m (s.drop j) = none) →
      replaceFirstM m rep s = s := by
  intro s
  induction s with
  | nil => intro _; rfl
  | cons c rest ih =>
    intro h
    have h0 : m (c :: rest) = none := by
      have := h 0 (by simp)
      simpa using this
    have hrec := ih (fun j hj => by simpa using h (j + 1) (by simpa using hj))
    show (match m (c :: rest) with
      | some n => rep ++ (c :: rest).drop n
      | none => c :: replaceFirstM m rep rest) = c :: rest
    rw [h0, hrec]

theorem replaceFirstM_at (m : List Char → Option Nat) (rep : List Char) :
    ∀ (a t : List Char) (n : Nat), t ≠ [] →
      (∀ j < a.length, m ((a ++ t).drop j) = none) → m t = some n →
      replaceFirstM m rep (a ++ t) = a ++ rep ++ t.drop n := by
  intro a
  induction a with
  | nil =>
    intro t n hne hja hm
    cases t with
    | nil => exact absurd rfl hne
    | cons c rest =>
      show (match m (c :: rest) with
        | some k => rep ++ (c :: rest).drop k
        | none => c :: replaceFirstM m rep rest) = [] ++ rep ++ (c :: rest).drop n
      rw [hm]
      simp
  | cons x xs ih =>
    intro t n hne hja hm
    have h0 : m (x :: (xs ++ t)) = none := by
      have := hja 0 (by simp)
      simpa using this
    have hrec := ih t n hne (fun j hj => by simpa using hja (j + 1) (by simpa using hj)) hm
    show (match m (x :: (xs ++ t)) with
      | some k => rep ++ (x :: (xs ++ t)).drop k
      | none => x :: replaceFirstM m rep (xs ++ t)) = (x :: xs) ++ rep ++ t.drop n
    rw [h0, hrec]
    simp

theorem parseRun_eq (d rest : List Char) (hne : d ≠ [])
    (hdig : ∀ c ∈ d, c.isDigit = true)
    (hrest : rest.takeWhile Char.isDigit = []) :
    parseRun (litDash0 ++ (d ++ rest)) = some (d.length, rest) := by
  unfold parseRun
  have hp : litDash0.isPrefixOf (litDash0 ++ (d ++ rest)) = true := by
    rw [isPrefixOf_eq_true_iff]
    exact ⟨_, rfl⟩
  have hdrop : (litDash0 ++ (d ++ rest)).drop 3 = d ++ rest :=
    List.drop_left' (by decide)
  have htw : (d ++ rest).takeWhile Char.isDigit = d := by
    rw [takeWhile_append_of_all _ _ _ hdig, hrest, List.append_nil]
  simp [hp, hdrop, htw, hne, List.drop_left]

theorem parseRun_eq_some (t : List Char) (nr : Nat × List Char)
    (h : parseRun t = some nr) :
    ∃ d, isDigits d ∧ d.length = nr.1 ∧ t = litDash0 ++ (d ++ nr.2) := by
  unfold parseRun at h
  split at h
  · rename_i hp
    split at h
    · cases h
    · rename_i hne
      rw [Option.some_inj] at h
      subst h
      rw [isPrefixOf_eq_true_iff] at hp
      obtain ⟨r, hr⟩ := hp
      have hdrop : t.drop 3 = r := by
        rw [← hr]
        exact List.drop_left' (by decide)
      show ∃ d, isDigits d ∧ d.length = ((t.drop 3).takeWhile Char.isDigit).length ∧
        t = litDash0 ++ (d ++ (t.drop 3).drop ((t.drop 3).takeWhile Char.isDigit).length)
      rw [hdrop] at hne ⊢
      refine ⟨r.takeWhile Char.isDigit, ⟨hne, ?_⟩, rfl, ?_⟩
      · intro c hc
        exact List.mem_takeWhile_imp hc
      · rw [drop_length_takeWhile, ← hr]
        congr 1
        exact (List.takeWhile_append_dropWhile Char.isDigit r).symm
  · cases h

theorem cropTok_ne_nil (d1 d2 : List Char) : cropTok d1 d2 ≠ [] := by
  intro hc
  have hlen := congrArg List.length hc
  have h3 : litDash0.length = 3 := by decide
  simp only [cropTok, List.length_append, List.length_nil, h3] at hlen
  omega

theorem mCrop_eq_some_of (d1 d2 b : List Char) (h1 : isDigits d1)
    (h2 : isDigits d2) :
    mCrop (cropTok d1 d2 ++ b) = some (cropTok d1 d2).length := by
  obtain ⟨h1ne, h1dig⟩ := h1
  obtain ⟨h2ne, h2dig⟩ := h2
  have e1 : cropTok d1 d2 ++ b
      = litDash0 ++ (d1 ++ (litDash0 ++ (d2 ++ (litDashCrop ++ b)))) := by
    simp [cropTok, List.append_assoc]
  have e2 : litDash0 ++ (d2 ++ (litDashCrop ++ b))
      = '-' :: ('0' :: ('-' :: (d2 ++ (litDashCrop ++ b)))) := rfl
  have e3 : litDashCrop ++ b = '-' :: ('c' :: ('r' :: ('o' :: ('p' :: b)))) := rfl
  have hstop1 : (litDash0 ++ (d2 ++ (litDashCrop ++ b))).takeWhile Char.isDigit
      = [] := by
    rw [e2]
    simp [List.takeWhile_cons]
  have hstop2 : (litDashCrop ++ b).takeWhile Char.isDigit = [] := by
    rw [e3]
    simp [List.takeWhile_cons]
  have hr1 := parseRun_eq d1 _ h1ne h1dig hstop1
  have hr2 := parseRun_eq d2 _ h2ne h2dig hstop2
  have hp : litDashCrop.isPrefixOf (litDashCrop ++ b) = true := by
    rw [isPrefixOf_eq_true_iff]
    exact ⟨b, rfl⟩
  rw [e1]
  unfold mCrop
  rw [hr1]
  simp only [hr2, hp, if_true]
  congr 1
  have h3 : litDash0.length = 3 := by decide
  have h5 : litDashCrop.length = 5 := by decide
  simp only [cropTok, List.length_append, h3, h5]

theorem mCrop_isSome_iff (t : List Char) :
    (mCrop t).isSome = true ↔
      ∃ d1 d2 b, isDigits d1 ∧ isDigits d2 ∧ t = cropTok d1 d2 ++ b := by
  constructor
  · intro h
    unfold mCrop at h
    split at h
    · cases h
    · rename_i r1 hr1
      split at h
      · cases h
      · rename_i r2 hr2
        split at h
        · rename_i hp
          obtain ⟨d1, hd1, -, ht⟩ := parseRun_eq_some t r1 hr1
          obtain ⟨d2, hd2, -, ht2⟩ := parseRun_eq_some r1.2 r2 hr2
          rw [isPrefixOf_eq_true_iff] at hp
          obtain ⟨b, hb⟩ := hp
          refine ⟨d1, d2, b, hd1, hd2, ?_⟩
          rw [ht, ht2, ← hb]
          simp [cropTok, List.append_assoc]
        · cases h
  · rintro ⟨d1, d2, b, h1, h2, rfl⟩
    rw [mCrop_eq_some_of d1 d2 b h1 h2]
    rfl

theorem cropAt_iff_scan (s : List Char) (j : Nat) :
    cropAt s j ↔ (mCrop (s.drop j)).isSome = true := by
  unfold cropAt
  rw [mCrop_isSome_iff]

theorem replaceCrop_of_not_occurs (p : List Char) (h : ¬ cropOccurs p) :
    replaceCrop p = p := by
  unfold replaceCrop
  apply replaceFirstM_of_none
  intro j hj
  cases hm : mCrop (p.drop j) with
  | none => rfl
  | some n => exact absurd ⟨j, (cropAt_iff_scan p j).mpr (by rw [hm]; rfl)⟩ h

theorem replaceCrop_at (a d1 d2 b : List Char) (h1 : isDigits d1)
    (h2 : isDigits d2)
    (hfirst : ∀ j < a.length, ¬ cropAt (a ++ (cropTok d1 d2 ++ b)) j) :
    replaceCrop (a ++ (cropTok d1 d2 ++ b)) = a ++ bigCrop ++ b := by
  unfold replaceCrop
  have hm := mCrop_eq_some_of d1 d2 b h1 h2
  have hne : cropTok d1 d2 ++ b ≠ [] := by
    simp [List.append_eq_nil, cropTok_ne_nil d1 d2]
  have hja : ∀ j < a.length, mCrop ((a ++ (cropTok d1 d2 ++ b)).drop j) = none := by
    intro j hj
    have hnc := hfirst j hj
    rw [cropAt_iff_scan] at hnc
    cases hm2 : mCrop ((a ++ (cropTok d1 d2 ++ b)).drop j) with
    | none => rfl
    | some n => exact absurd (by rw [hm2]; rfl) hnc
  rw [replaceFirstM_at mCrop bigCrop a _ _ hne hja hm, List.drop_left]

theorem replaceFirstLit_of_not_occurs (lit rep p : List Char)
    (h : ¬ litOccurs lit p) : replaceFirstLit lit rep p = p := by
  unfold replaceFirstLit
  apply replaceFirstM_of_none
  intro j hj
  by_cases hp : lit.isPrefixOf (p.drop j) = true
  · exfalso
    rw [isPrefixOf_eq_true_iff] at hp
    obtain ⟨b, hb⟩ := hp
    refine h ⟨p.take j, b, ?_⟩
    conv_lhs => rw [← List.take_append_drop j p]
    rw [← hb]
    simp [List.append_assoc]
  · simp [hp]

theorem replaceFirstLit_at (lit rep a b : List Char) (hlit : lit ≠ [])
    (hfirst : ∀ j < a.length, ¬ lit <+: (a ++ (lit ++ b)).drop j) :
    replaceFirstLit lit rep (a ++ (lit ++ b)) = a ++ rep ++ b := by
  unfold replaceFirstLit
  have hplit : lit.isPrefixOf (lit ++ b) = true := by
    rw [isPrefixOf_eq_true_iff]
    exact ⟨b, rfl⟩
  have hm : (fun t => if lit.isPrefixOf t then some lit.length else none) (lit ++ b)
      = some lit.length := by
    simp [hplit]
  have hne : lit ++ b ≠ [] := by
    simp [List.append_eq_nil, hlit]
  have hja : ∀ j < a.length,
      (fun t => if lit.isPrefixOf t then some lit.length else none)
        ((a ++ (lit ++ b)).drop j) = none := by
    intro j hj
    have hnp := hfirst j hj
    by_cases hp : lit.isPrefixOf ((a ++ (lit ++ b)).drop j) = true
    · rw [isPrefixOf_eq_true_iff] at hp
      exact absurd hp hnp
    · simp [hp]
  rw [replaceFirstM_at _ rep a (lit ++ b) lit.length hne hja hm, List.drop_left]

theorem not_litOccurs_of_idxOf (lit s : List Char) (h : idxOfAux lit s 0 = none) :
    ¬ litOccurs lit s := by
  rintro ⟨a, b, rfl⟩
  refine idxOfAux_eq_none lit _ 0 h a.length ?_
  rw [List.append_assoc, List.drop_left]
  exact ⟨b, rfl⟩

theorem not_cropOccurs_of_scan (p : List Char)
    (h : ∀ j < p.length, mCrop (p.drop j) = none) : ¬ cropOccurs p := by
  rintro ⟨j, hc⟩
  rw [cropAt_iff_scan] at hc
  by_cases hj : j < p.length
  · rw [h j hj] at hc
    cases hc
  · have hnil : p.drop j = [] := List.drop_eq_nil_of_le (by omega)
    rw [hnil] at hc
    exact absurd hc (by decide)

theorem not_cropAt_before (p : List Char) (k : Nat)
    (h : ∀ j < k, mCrop (p.drop j) = none) : ∀ j < k, ¬ cropAt p j := by
  intro j hj hc
  rw [cropAt_iff_scan] at hc
  rw [h j hj] at hc
  cases hc

/-- Claim C5, amended: the poster rewrite differs per variant.  The part_000
rewrite (`enlargePosterW`) tries the three small-size tokens in a fixed
order — the crop pattern first, then `-0-150-0-225-`, then `-0-125-0-187-` —
each replacing only its first occurrence: a URL containing no token is
unchanged, and a URL whose only token content is a single occurrence of one
token has exactly that token replaced by its large-size counterpart with
every other character unchanged (the side conditions state that no token
occurs elsewhere or earlier).  The src/api/watchlist.js rewrite (lines 39-42,
`replaceCrop` applied by `posterApi` to the matched poster) consists of the
crop rule alone: a crop-free URL is returned unchanged — even when it
contains a literal size token — and a first crop occurrence is replaced with
the large crop token. -/
theorem C5_rewrite :
    (∀ p : List Char, ¬ cropOccurs p → ¬ litOccurs lit150 p →
      ¬ litOccurs lit125 p → enlargePosterW p = p) ∧
    (∀ a d1 d2 b : List Char, isDigits d1 → isDigits d2 →
      (∀ j < a.length, ¬ cropAt (a ++ (cropTok d1 d2 ++ b)) j) →
      ¬ litOccurs lit150 (a ++ bigCrop ++ b) →
      ¬ litOccurs lit125 (a ++ bigCrop ++ b) →
      enlargePosterW (a ++ (cropTok d1 d2 ++ b)) = a ++ bigCrop ++ b) ∧
    (∀ a b : List Char, ¬ cropOccurs (a ++ (lit150 ++ b)) →
      (∀ j < a.length, ¬ lit150 <+: (a ++ (lit150 ++ b)).drop j) →
      ¬ litOccurs lit125 (a ++ big150 ++ b) →
      enlargePosterW (a ++ (lit150 ++ b)) = a ++ big150 ++ b) ∧
    (∀ a b : List Char, ¬ cropOccurs (a ++ (lit125 ++ b)) →
      ¬ litOccurs lit150 (a ++ (lit125 ++ b)) →
      (∀ j < a.length, ¬ lit125 <+: (a ++ (lit125 ++ b)).drop j) →
      enlargePosterW (a ++ (lit125 ++ b)) = a ++ big125 ++ b) ∧
    (∀ p : List Char, ¬ cropOccurs p → replaceCrop p = p) ∧
    (∀ a d1 d2 b : List Char, isDigits d1 → isDigits d2 →
      (∀ j < a.length, ¬ cropAt (a ++ (cropTok d1 d2 ++ b)) j) →
      replaceCrop (a ++ (cropTok d1 d2 ++ b)) = a ++ bigCrop ++ b) ∧
    (∀ sect p : List Char, firstCapture mPosterApi sect = some p →
      posterApi sect = if p = [] then p else replaceCrop p) := by
  refine ⟨?_, ?_, ?_, ?_, ?_, ?_, ?_⟩
  · intro p hcrop h150 h125
    unfold enlargePosterW
    rw [replaceCrop_of_not_occurs p hcrop,
      replaceFirstLit_of_not_occurs lit150 big150 p h150,
      replaceFirstLit_of_not_occurs lit125 big125 p h125]
  · intro a d1 d2 b h1 h2 hfirst h150 h125
    unfold enlargePosterW
    rw [replaceCrop_at a d1 d2 b h1 h2 hfirst,
      replaceFirstLit_of_not_occurs lit150 big150 _ h150,
      replaceFirstLit_of_not_occurs lit125 big125 _ h125]
  · intro a b hcrop hfirst h125
    unfold enlargePosterW
    rw [replaceCrop_of_not_occurs _ hcrop,
      replaceFirstLit_at lit150 big150 a b (by decide) hfirst,
      replaceFirstLit_of_not_occurs lit125 big125 _ h125]
  · intro a b hcrop h150 hfirst
    unfold enlargePosterW
    rw [replaceCrop_of_not_occurs _ hcrop,
      replaceFirstLit_of_not_occurs lit150 big150 _ h150,
      replaceFirstLit_at lit125 big125 a b (by decide) hfirst]
  · intro p hcrop
    exact replaceCrop_of_not_occurs p hcrop
  · intro a d1 d2 b h1 h2 hfirst
    exact replaceCrop_at a d1 d2 b h1 h2 hfirst
  · intro sect p h
    unfold posterApi
    rw [h]

/-- Witness for `C5_rewrite`: a token-free URL, a crop-token URL, one URL for
each literal token, and — for the api rewrite — a literal-token-only URL, a
crop-token URL, and a section whose poster match carries the literal-token
URL. -/
theorem C5_rewrite_witness :
    enlargePosterW cNoTok = cNoTok ∧
    enlargePosterW (cU ++ (cropTok cD1 cD2 ++ cJpgStr)) = cU ++ bigCrop ++ cJpgStr ∧
    enlargePosterW (cU ++ (lit150 ++ cV)) = cU ++ big150 ++ cV ∧
    enlargePosterW (cU ++ (lit125 ++ cV)) = cU ++ big125 ++ cV ∧
    replaceCrop cUrlOnly150 = cUrlOnly150 ∧
    replaceCrop (cU ++ (cropTok cD1 cD2 ++ cJpgStr)) = cU ++ bigCrop ++ cJpgStr ∧
    posterApi cSect150 = (if cUrlOnly150 = [] then cUrlOnly150 else replaceCrop cUrlOnly150) :=
  ⟨C5_rewrite.1 cNoTok (not_cropOccurs_of_scan _ (by decide))
      (not_litOccurs_of_idxOf _ _ (by decide))
      (not_litOccurs_of_idxOf _ _ (by decide)),
    C5_rewrite.2.1 cU cD1 cD2 cJpgStr ⟨by decide, by decide⟩ ⟨by decide, by decide⟩
      (not_cropAt_before _ _ (by decide))
      (not_litOccurs_of_idxOf _ _ (by decide))
      (not_litOccurs_of_idxOf _ _ (by decide)),
    C5_rewrite.2.2.1 cU cV (not_cropOccurs_of_scan _ (by decide)) (by decide)
      (not_litOccurs_of_idxOf _ _ (by decide)),
    C5_rewrite.2.2.2.1 cU cV (not_cropOccurs_of_scan _ (by decide))
      (not_litOccurs_of_idxOf _ _ (by decide)) (by decide),
    C5_rewrite.2.2.2.2.1 cUrlOnly150 (not_cropOccurs_of_scan _ (by decide)),
    C5_rewrite.2.2.2.2.2.1 cU cD1 cD2 cJpgStr ⟨by decide, by decide⟩
      ⟨by decide, by decide⟩ (not_cropAt_before _ _ (by decide)),
    C5_rewrite.2.2.2.2.2.2 cSect150 cUrlOnly150 (by decide)⟩

/-- Counterexample to claim C5 as stated, in both variants.  part_000: the
site's real poster URLs contain `-0-150-0-225-crop`, where the
`-0-150-0-225-` literal token overlaps the crop pattern; the URL contains the
small-size token `lit150`, yet the output is NOT the input with that token
replaced by its large-size counterpart — the crop rule fires first and widens
the whole crop segment.  src/api/watchlist.js: its rewrite has only the crop
rule, so a URL whose only token is `-0-150-0-225-` is returned entirely
unchanged (shown both for `replaceCrop` and through `posterApi` on a section
carrying that URL), not with the token replaced. -/
theorem C5_counterexample :
    cUrl150crop = cUrlA ++ lit150 ++ cUrlB ∧
    enlargePosterW cUrl150crop = cUrlBig ∧
    enlargePosterW cUrl150crop ≠ cUrlA ++ big150 ++ cUrlB ∧
    cUrlOnly150 = cUrlA ++ lit150 ++ cUrlB2 ∧
    replaceCrop cUrlOnly150 = cUrlOnly150 ∧
    posterApi cSect150 = cUrlOnly150 ∧
    cUrlOnly150 ≠ cUrlA ++ big150 ++ cUrlB2 := by
  decide

/-! ## Claim C6 -/

theorem scrapeLoop_challenge_page1 (parse : List Char → List MovieRecord)
    (fetch : Nat → Fetch) (fuel : Nat) (acc : List MovieRecord) (h1 : List Char)
    (hf : fetch 1 = Fetch.ok h1) (hm : hasMarker h1 = true) :
    scrapeLoop parse fetch (fuel + 1) 1 acc = (LoopOut.challengeFirst, 1) := by
  simp only [scrapeLoop]
  rw [hf]
  simp [hm]

/-- Claim C6, confirmed: a fetched body containing one of the two
bot-challenge markers yields, on page 1, the 503 response with
`cloudflare: true` (in the 20-page handlers and in the 10-page fallback), and
on any page other than 1 it stops the loop keeping the movies collected so
far. -/
theorem C6_challenge :
    (∀ (parse : List Char → List MovieRecord) (username : List Char)
        (random : Bool) (r : ℚ) (fetch : Nat → Fetch) (h1 : List Char),
      username ≠ [] → fetch 1 = Fetch.ok h1 → hasMarker h1 = true →
      handlePrimary parse username random r fetch
        = ApiResult.errorResp 503 msgBlocked true) ∧
    (∀ (parse : List Char → List MovieRecord) (fetch : Nat → Fetch)
        (fuel page : Nat) (acc : List MovieRecord) (html : List Char),
      page ≠ 1 → fetch page = Fetch.ok html → hasMarker html = true →
      scrapeLoop parse fetch (fuel + 1) page acc = (LoopOut.finished acc, 1)) ∧
    (∀ (fetch : Nat → Fetch) (h1 : List Char),
      fetch 1 = Fetch.ok h1 → hasMarker h1 = true →
      fallbackScrape fetch = ApiResult.errorResp 503 msgBlocked true) := by
  refine ⟨?_, ?_, ?_⟩
  · intro parse username random r fetch h1 hu hf hm
    unfold handlePrimary
    rw [if_neg hu]
    have h20 : (20 : Nat) = 19 + 1 := rfl
    rw [h20, scrapeLoop_challenge_page1 parse fetch 19 [] h1 hf hm]
  · intro parse fetch fuel page acc html hp hf hm
    simp only [scrapeLoop]
    rw [hf]
    simp [hm, hp]
  · intro fetch h1 hf hm
    unfold fallbackScrape
    have h10 : (10 : Nat) = 9 + 1 := rfl
    rw [h10, scrapeLoop_challenge_page1 parseMovies fetch 9 [] h1 hf hm]

/-- Witness for `C6_challenge` with a constant challenge-page fetcher. -/
theorem C6_challenge_witness :
    handlePrimary parseMovies cUser false 0 cFetchChal
      = ApiResult.errorResp 503 msgBlocked true ∧
    scrapeLoop parseMovies cFetchChal (0 + 1) 2 [] = (LoopOut.finished [], 1) ∧
    fallbackScrape cFetchChal = ApiResult.errorResp 503 msgBlocked true :=
  ⟨C6_challenge.1 parseMovies cUser false 0 cFetchChal cHtmlChal (by decide)
      rfl (by decide),
    C6_challenge.2.1 parseMovies cFetchChal 0 2 [] cHtmlChal (by decide)
      rfl (by decide),
    C6_challenge.2.2 cFetchChal cHtmlChal rfl (by decide)⟩

/-! ## Claim C7 -/

theorem jsFloorMul_lt (r : ℚ) (n : Nat) (h0 : 0 ≤ r) (h1 : r < 1)
    (hn : 0 < n) : jsFloorMul r n < n := by
  unfold jsFloorMul
  have hnq : (0 : ℚ) < (n : ℚ) := by exact_mod_cast hn
  have hlt : r * (n : ℚ) < (n : ℚ) := by
    calc r * (n : ℚ) < 1 * (n : ℚ) := mul_lt_mul_of_pos_right h1 hnq
    _ = (n : ℚ) := one_mul _
  have hfl : Int.floor (r * (n : ℚ)) < (n : Int) := by
    rw [Int.floor_lt]
    exact_mod_cast hlt
  have hnn : 0 ≤ Int.floor (r * (n : ℚ)) :=
    Int.floor_nonneg.mpr (mul_nonneg h0 (le_of_lt hnq))
  omega

/-- Claim C7, amended: with `random=true` and a non-empty collected list of
`n` records, the 20-page handlers and the StremThru success path respond with
exactly one movie — an element of the list, selected at an index in `[0, n)` —
and `total = n`; the fallback scrape path of the StremThru worker, however,
never produces a single-movie response: it returns the full list even when
`random=true` was requested. -/
theorem C7_random :
    (∀ (parse : List Char → List MovieRecord) (username : List Char) (r : ℚ)
        (fetch : Nat → Fetch) (ms : List MovieRecord),
      username ≠ [] → 0 ≤ r → r < 1 →
      (scrapeLoop parse fetch 20 1 []).1 = LoopOut.finished ms → ms ≠ [] →
      ∃ m, handlePrimary parse username true r fetch
          = ApiResult.movieResp (some m) ms.length ∧ m ∈ ms ∧
        jsFloorMul r ms.length < ms.length) ∧
    (∀ (username : List Char) (r : ℚ) (idName : List Char)
        (items : List StremItem) (fetch : Nat → Fetch),
      username ≠ [] → 0 ≤ r → r < 1 → idName ≠ [] → items ≠ [] →
      ∃ m, handleV2 username true r (IdFetch.ok idName) (StremFetch.ok items)
          fetch = ApiResult.movieResp (some m) (items.map stremToRecord).length ∧
        m ∈ items.map stremToRecord) ∧
    (∀ (fetch : Nat → Fetch) (m : Option MovieRecord) (t : Nat),
      fallbackScrape fetch ≠ ApiResult.movieResp m t) := by
  refine ⟨?_, ?_, ?_⟩
  · intro parse username r fetch ms hu h0 h1 hloop hne
    have hpos : 0 < ms.length := List.length_pos.mpr hne
    have hlt : jsFloorMul r ms.length < ms.length := jsFloorMul_lt r _ h0 h1 hpos
    refine ⟨ms.get ⟨jsFloorMul r ms.length, hlt⟩, ?_, List.get_mem ms _ hlt, hlt⟩
    unfold handlePrimary
    rw [if_neg hu, hloop]
    simp [hne, List.getElem?_eq_getElem hlt]
  · intro username r idName items fetch hu h0 h1 hid hne
    have hpos : 0 < (items.map stremToRecord).length := by
      rw [List.length_map]
      exact List.length_pos.mpr hne
    have hlt : jsFloorMul r (items.map stremToRecord).length
        < (items.map stremToRecord).length := jsFloorMul_lt r _ h0 h1 hpos
    refine ⟨(items.map stremToRecord).get ⟨_, hlt⟩, ?_, List.get_mem _ _ hlt⟩
    have hlt' : jsFloorMul r items.length < items.length := by
      rw [List.length_map] at hlt
      exact hlt
    unfold handleV2
    rw [if_neg hu]
    simp [hid, hne, List.getElem?_eq_getElem hlt]
    refine ⟨items.get ⟨jsFloorMul r items.length, hlt'⟩, ?_, ?_⟩ <;>
      simp [List.getElem?_eq_getElem hlt']
  · intro fetch m t
    unfold fallbackScrape
    split
    · simp
    · simp
    · split <;> simp

/-- Witness for `C7_random`: one page with one movie, `r = 0`. -/
theorem C7_random_witness :
    (∃ m, handlePrimary parseMovies cUser true 0 cFetchOne
        = ApiResult.movieResp (some m) ([cRecZZ] : List MovieRecord).length ∧
      m ∈ ([cRecZZ] : List MovieRecord) ∧
      jsFloorMul 0 ([cRecZZ] : List MovieRecord).length
        < ([cRecZZ] : List MovieRecord).length) ∧
    fallbackScrape cFetchOne ≠ ApiResult.movieResp none 1 :=
  ⟨C7_random.1 parseMovies cUser 0 cFetchOne [cRecZZ] (by decide) (le_refl 0)
      zero_lt_one (by decide) (by decide),
    C7_random.2.2 cFetchOne none 1⟩

/-- Counterexample to claim C7 as stated: in the StremThru worker, a request
with `random=true` whose collection (via the fallback scrape path, taken here
because the identifier header is empty) yields one record is answered with the
full-list shape and no `movie` field. -/
theorem C7_counterexample :
    handleV2 cUser true 0 (IdFetch.ok []) StremFetch.fail cFetchOne
      = ApiResult.moviesResp [cRecZZ] 1 ∧
    ∀ (m : Option MovieRecord) (t : Nat),
      ApiResult.moviesResp [cRecZZ] 1 ≠ ApiResult.movieResp m t :=
  ⟨by decide, fun m t h => ApiResult.noConfusion h⟩

/-! ## Claim C8 -/

theorem scrapeLoop_iters_le (parse : List Char → List MovieRecord)
    (fetch : Nat → Fetch) :
    ∀ (fuel page : Nat) (acc : List MovieRecord),
      (scrapeLoop parse fetch fuel page acc).2 ≤ fuel := by
  intro fuel
  induction fuel with
  | zero =>
    intro page acc
    simp [scrapeLoop]
  | succ n ih =>
    intro page acc
    simp only [scrapeLoop]
    split
    · split <;> simp
    · split
      · split <;> simp
      · split
        · simp
        · rename_i html hfp hm hms
          have h := ih (page + 1) (acc ++ parse html)
          simp only []
          omega

/-- Claim C8, confirmed: for every fetcher and extractor behavior the
pagination loop performs at most the configured page cap of iterations — 20 in
the handlers of src/api/watchlist.js and the first worker, 10 in the second
worker's `fallbackScrape` — and terminates (it is a total function by
construction).  The iteration counter is computed by the loop itself. -/
theorem C8_cap :
    (∀ (parse : List Char → List MovieRecord) (fetch : Nat → Fetch)
        (page : Nat) (acc : List MovieRecord),
      (scrapeLoop parse fetch 20 page acc).2 ≤ 20) ∧
    (∀ (parse : List Char → List MovieRecord) (fetch : Nat → Fetch)
        (page : Nat) (acc : List MovieRecord),
      (scrapeLoop parse fetch 10 page acc).2 ≤ 10) :=
  ⟨fun parse fetch page acc => scrapeLoop_iters_le parse fetch 20 page acc,
    fun parse fetch page acc => scrapeLoop_iters_le parse fetch 10 page acc⟩

/-! ## Claim C9 -/

theorem nodup_map_slug_filterMap (html : List Char) :
    ∀ l : List (List Char), l.Nodup →
      ((l.filterMap (buildRecordW html)).map MovieRecord.slug).Nodup := by
  intro l
  induction l with
  | nil =>
    intro _
    simp
  | cons s rest ih =>
    intro h
    rw [List.nodup_cons] at h
    obtain ⟨hs, hrest⟩ := h
    rw [List.filterMap_cons]
    cases hb : buildRecordW html s with
    | none => exact ih hrest
    | some rec =>
      simp only [List.map_cons]
      rw [List.nodup_cons]
      refine ⟨?_, ih hrest⟩
      intro hmem
      rw [List.mem_map] at hmem
      obtain ⟨r', hr', heq⟩ := hmem
      rw [List.mem_filterMap] at hr'
      obtain ⟨s', hs', hbs'⟩ := hr'
      have h1 : r'.slug = s' := (buildRecordW_eq_some html s' r' hbs').1
      have h2 : rec.slug = s := (buildRecordW_eq_some html s rec hb).1
      rw [h1, h2] at heq
      exact hs (heq ▸ hs')

/-- Claim C9, amended: slug values are pairwise distinct within one page's
extracted records (for both extractors); the accumulation across pages
performs no cross-page filtering, so the aggregated full-list result may
repeat a slug. -/
theorem C9_nodup :
    (∀ html : List Char, ((parseMovies html).map MovieRecord.slug).Nodup) ∧
    (∀ html : List Char, ((parseMoviesApi html).map MovieRecord.slug).Nodup) := by
  constructor
  · intro html
    unfold parseMovies
    refine nodup_map_slug_filterMap html (collectSlugs html) ?_
    unfold collectSlugs
    exact nodup_foldl_insertUnique _ [] List.nodup_nil
  · intro html
    unfold parseMoviesApi
    have hmap : ((collectSlugsApi html).map (buildRecordApi html)).map
        MovieRecord.slug = collectSlugsApi html := by
      rw [List.map_map]
      have hcomp : MovieRecord.slug ∘ buildRecordApi html = id := by
        funext s
        rfl
      rw [hcomp, List.map_id]
    rw [hmap]
    unfold collectSlugsApi
    exact nodup_foldl_insertUnique _ [] List.nodup_nil

/-- Counterexample to claim C9 as stated: when pages 1 and 2 serve the same
HTML, the full-list success response repeats the slug — the aggregated slugs
are not pairwise distinct. -/
theorem C9_counterexample :
    handlePrimary parseMovies cUser false 0 cFetchDup
      = ApiResult.moviesResp [cRecZZ, cRecZZ] 2 ∧
    ¬ (([cRecZZ, cRecZZ] : List MovieRecord).map MovieRecord.slug).Nodup := by
  decide

/-! ## Claim C10 -/

theorem execAllAux_length_le (m : List Char → Option (List Char × Nat)) :
    ∀ (fuel : Nat) (s : List Char), (execAllAux m fuel s).length ≤ fuel := by
  intro fuel
  induction fuel with
  | zero =>
    intro s
    simp [execAllAux]
  | succ n ih =>
    intro s
    cases s with
    | nil => simp [execAllAux]
    | cons c rest =>
      simp only [execAllAux]
      split
      · rename_i cap k heq
        simp only [List.length_cons]
        have := ih ((c :: rest).drop (max k 1))
        omega
      · have := ih rest
        omega

theorem foldl_insertUnique_length_le (l : List (List Char)) :
    ∀ acc : List (List Char),
      (l.foldl insertUnique acc).length ≤ acc.length + l.length := by
  induction l with
  | nil =>
    intro acc
    simp
  | cons x xs ih =>
    intro acc
    simp only [List.foldl_cons, List.length_cons]
    have h1 := ih (insertUnique acc x)
    have h2 : (insertUnique acc x).length ≤ acc.length + 1 := by
      unfold insertUnique
      split
      · simp
      · simp
    omega

theorem statusOf_fallbackScrape_ne (fetch : Nat → Fetch) :
    statusOf (fallbackScrape fetch) ≠ 500 := by
  unfold fallbackScrape
  split
  · simp [statusOf]
  · simp [statusOf]
  · split <;> simp [statusOf]

/-- Claim C10, confirmed: the extractor is a total function (both extractors
are plain total Lean functions of the page text) and its output is finite —
bounded by three matches per input character; consequently, for every fetcher
behavior, none of the request handlers can produce a 500 response: the
unclassified-failure path is reachable only through effects outside the pure
pipeline (network and serialization). -/
theorem C10_total :
    (∀ html : List Char, (parseMovies html).length ≤ 3 * html.length ∧
      (parseMoviesApi html).length ≤ html.length) ∧
    (∀ (parse : List Char → List MovieRecord) (username : List Char)
        (random : Bool) (r : ℚ) (fetch : Nat → Fetch),
      statusOf (handlePrimary parse username random r fetch) ≠ 500) ∧
    (∀ fetch : Nat → Fetch, statusOf (fallbackScrape fetch) ≠ 500) ∧
    (∀ (username : List Char) (random : Bool) (r : ℚ) (idRes : IdFetch)
        (strem : StremFetch) (fetch : Nat → Fetch),
      statusOf (handleV2 username random r idRes strem fetch) ≠ 500) := by
  refine ⟨?_, ?_, ?_, ?_⟩
  · intro html
    constructor
    · unfold parseMovies
      have hf := List.length_filterMap_le (buildRecordW html) (collectSlugs html)
      have hc : (collectSlugs html).length ≤ 0 +
          (execAll mFilmSlug html ++ execAll mItemSlug html
            ++ execAll mHref html).length :=
        foldl_insertUnique_length_le _ []
      have h1 := execAllAux_length_le mFilmSlug html.length html
      have h2 := execAllAux_length_le mItemSlug html.length html
      have h3 := execAllAux_length_le mHref html.length html
      simp only [List.length_append] at hc
      unfold execAll at hc
      omega
    · unfold parseMoviesApi
      rw [List.length_map]
      have hc : (collectSlugsApi html).length ≤ 0 +
          (execAll mSlugCombined html).length :=
        foldl_insertUnique_length_le _ []
      have h1 := execAllAux_length_le mSlugCombined html.length html
      unfold execAll at hc
      omega
  · intro parse username random r fetch
    unfold handlePrimary
    split
    · simp [statusOf]
    · split
      · simp [statusOf]
      · simp [statusOf]
      · split
        · simp [statusOf]
        · split <;> simp [statusOf]
  · intro fetch
    exact statusOf_fallbackScrape_ne fetch
  · intro username random r idRes strem fetch
    unfold handleV2
    split
    · simp [statusOf]
    · split
      · simp [statusOf]
      · split
        · exact statusOf_fallbackScrape_ne fetch
        · split
          · exact statusOf_fallbackScrape_ne fetch
          · split
            · simp [statusOf]
            · split <;> simp [statusOf]

end LBX
